import Mathlib

/-!
# Verification of the load-balancer model builder

Shallow embedding of `pkg/ingress/model_build_load_balancer.go` from the
aws-load-balancer-controller: the per-field merge of grouped ingress
annotations, the subnet / security-group reference resolvers, the
explicit-vs-fallback selection policy, deterministic name generation and the
spec assembler, together with theorems settling the specification claims.

External collaborators (the annotation parser, the EC2 describe calls, subnet
discovery and the managed security-group builder) are modelled as function
fields of the build task, mirroring the interfaces the Go code calls.
-/

set_option autoImplicit false

deriving instance DecidableEq for Except

namespace LBBuild

/-- Embeds `elbv2model.LoadBalancerScheme`. -/
inductive LoadBalancerScheme where
  | internetFacing
  | internal
deriving DecidableEq

/-- The raw string value of each scheme enum constant. -/
def LoadBalancerScheme.str : LoadBalancerScheme → String
  | .internetFacing => "internet-facing"
  | .internal => "internal"

/-- Embeds `elbv2model.IPAddressType`. -/
inductive IPAddressType where
  | ipv4
  | dualstack
deriving DecidableEq

/-- The raw string value of each IP address type enum constant. -/
def IPAddressType.str : IPAddressType → String
  | .ipv4 => "ipv4"
  | .dualstack => "dualstack"

/-- Embeds `elbv2model.LoadBalancerType`; only the application type occurs here. -/
inductive LoadBalancerType where
  | application
deriving DecidableEq

/-- The fields of `ec2sdk.Subnet` that this code reads or that the claims
mention: the subnet ID and its availability zone (failure domain). -/
structure Subnet where
  subnetId : String
  availabilityZone : String
deriving DecidableEq

/-- The field of `ec2sdk.SecurityGroup` that this code reads. -/
structure SecurityGroup where
  groupId : String
deriving DecidableEq

/-- Embeds `core.StringToken`: either a literal string or a late-bound reference to
another resource's field (such as the managed security group's ID). -/
inductive StringToken where
  | literal (value : String)
  | resourceRef (resID : String) (field : String)
deriving DecidableEq

/-- Embeds `elbv2model.SubnetMapping`; only the subnet ID is populated here. -/
structure SubnetMapping where
  subnetID : String
deriving DecidableEq

/-- Embeds `elbv2model.LoadBalancerAttribute`. -/
structure LoadBalancerAttribute where
  key : String
  value : String
deriving DecidableEq

/-- Modelled from the spec: the ingress group identity (`ingress.GroupID`,
outside the provided source) — an explicit name, or a namespace+name pair,
plus a flag distinguishing explicitly named from derived groups. -/
structure GroupID where
  nspace : String
  name : String
  explicitFlag : Bool
deriving DecidableEq

/-- Modelled from the spec: the group identity's canonical string form
(`GroupID.String()`, outside the provided source), taken as the
namespace/name pair joined by a slash. -/
def GroupID.canonicalString (g : GroupID) : String :=
  g.nspace ++ "/" ++ g.name

/-- One member of the ingress group, carrying the parsed annotation values the
annotation layer (out of scope, §6 of the spec) extracts for it.  `none`
means the annotation is absent; map-valued annotations contribute nothing
when absent and are here the already-parsed key-value pairs. -/
structure IngressMember where
  schemeAnn : Option String
  ipAddressTypeAnn : Option String
  subnetsAnn : Option (List String)
  securityGroupsAnn : Option (List String)
  attributesAnn : List (String × String)
  tagsAnn : List (String × String)
deriving DecidableEq

/-- Listener configuration by port.  Its contents are never inspected by the
load-balancer build; it is passed through unchanged to the managed
security-group provisioner, so it is modelled as an opaque value. -/
structure ListenPortConfigByPort where
  ports : List Int
deriving DecidableEq

/-- The error taxonomy of the build, carrying the same data the Go
`errors.Errorf` messages interpolate. -/
inductive BuildError where
  | conflictingScheme (schemes : List String)
  | unknownScheme (raw : String)
  | conflictingIPAddressType (types : List String)
  | unknownIPAddressType (raw : String)
  | insufficientSubnets (discoveredSubnetIDs : List String)
  | conflictingSubnets (chosen other : List String)
  | conflictingSecurityGroups (chosen other : List String)
  | conflictingAttribute (key existing new : String)
  | conflictingTag (key existing new : String)
  | subnetResolutionError (requested found : List String)
  | sgResolutionError (requested found : List String)
  | upstream (msg : String)
deriving DecidableEq

/-- Embeds `defaultModelBuildTask`: the immutable inputs of one build, with the
external collaborators (EC2 describes, discovery, managed-SG provisioning)
as function fields returning `Except` to model their error returns. -/
structure ModelBuildTask where
  clusterName : String
  ingGroupID : GroupID
  members : List IngressMember
  vpcID : String
  defaultScheme : LoadBalancerScheme
  defaultIPAddressType : IPAddressType
  discoverSubnets : LoadBalancerScheme → Except String (List Subnet)
  describeSubnetsByIDs : List String → Except String (List Subnet)
  describeSubnetsByNameTag : String → List String → Except String (List Subnet)
  describeSecurityGroupsByIDs : List String → Except String (List SecurityGroup)
  describeSecurityGroupsByNameTag : String → List String → Except String (List SecurityGroup)
  buildManagedSecurityGroup : ListenPortConfigByPort → IPAddressType → Except String StringToken

/-- Embeds `sets.String.Insert`: add a value to the collected set unless already
present (the Go set dedups; insertion order of first occurrence kept). -/
def insertDistinct (s : List String) (x : String) : List String :=
  if x ∈ s then s else s ++ [x]

/-- The collection loop shared by `buildLoadBalancerScheme` and
`buildLoadBalancerIPAddressType`: walk the group members and insert each
specified raw annotation value into a string set (absent values skipped). -/
def collectDistinct (extract : IngressMember → Option String)
    (members : List IngressMember) : List String :=
  members.foldl (fun acc ing =>
    match extract ing with
    | none => acc
    | some raw => insertDistinct acc raw) []

/-- The collection loop shared by `buildLoadBalancerSubnetMappings` and
`buildLoadBalancerSecurityGroups`: gather, in member order, the list-valued
annotation of every member that specifies it. -/
def collectSpecifiedLists (extract : IngressMember → Option (List String))
    (members : List IngressMember) : List (List String) :=
  members.foldl (fun acc ing =>
    match extract ing with
    | none => acc
    | some raw => acc ++ [raw]) []

/-- The branch structure of `buildLoadBalancerScheme` after collection:
empty set → default; singleton → validate against the enum; larger set →
conflict carrying all distinct values. -/
def parseSchemeDistinct (t : ModelBuildTask) : List String → Except BuildError LoadBalancerScheme
  | [] => .ok t.defaultScheme
  | [rawScheme] =>
      if rawScheme = "internet-facing" then .ok .internetFacing
      else if rawScheme = "internal" then .ok .internal
      else .error (.unknownScheme rawScheme)
  | schemes => .error (.conflictingScheme schemes)

/-- Embeds `buildLoadBalancerScheme`. -/
def buildLoadBalancerScheme (t : ModelBuildTask) : Except BuildError LoadBalancerScheme :=
  parseSchemeDistinct t (collectDistinct (fun ing => ing.schemeAnn) t.members)

/-- The branch structure of `buildLoadBalancerIPAddressType` after
collection. -/
def parseIPAddressTypeDistinct (t : ModelBuildTask) : List String → Except BuildError IPAddressType
  | [] => .ok t.defaultIPAddressType
  | [rawIPAddressType] =>
      if rawIPAddressType = "ipv4" then .ok .ipv4
      else if rawIPAddressType = "dualstack" then .ok .dualstack
      else .error (.unknownIPAddressType rawIPAddressType)
  | types => .error (.conflictingIPAddressType types)

/-- Embeds `buildLoadBalancerIPAddressType`. -/
def buildLoadBalancerIPAddressType (t : ModelBuildTask) : Except BuildError IPAddressType :=
  parseIPAddressTypeDistinct t (collectDistinct (fun ing => ing.ipAddressTypeAnn) t.members)

/-- Modelled from the spec: `equality.IgnoreStringSliceOrder()` combined with
`cmp.Equal` (the `equality` package is outside the provided source).  Per the
spec the subnet name-or-ID lists are compared for set equality,
"order-insensitive, duplicates irrelevant". -/
def stringSliceSetEqual (xs ys : List String) : Bool :=
  xs.all (fun x => ys.contains x) && ys.all (fun y => xs.contains y)

/-- The conflict-check loop of `buildLoadBalancerSubnetMappings` (lines
169-175): every later specified list must equal the first one as a set, else
the merge fails naming the chosen list and the differing list. -/
def checkSubnetListsAgainstChosen (chosen : List String) :
    List (List String) → Except BuildError (List String)
  | [] => .ok chosen
  | l :: ls =>
      if stringSliceSetEqual chosen l then checkSubnetListsAgainstChosen chosen ls
      else .error (.conflictingSubnets chosen l)

/-- The conflict-check loop of `buildLoadBalancerSecurityGroups` (lines
200-206): `cmp.Equal` without options, i.e. exact order-sensitive slice
equality against the first specified list. -/
def checkSGListsAgainstChosen (chosen : List String) :
    List (List String) → Except BuildError (List String)
  | [] => .ok chosen
  | l :: ls =>
      if l = chosen then checkSGListsAgainstChosen chosen ls
      else .error (.conflictingSecurityGroups chosen l)

/-- Embeds `buildLoadBalancerSubnetMappingsWithSubnetIDs`. -/
def buildLoadBalancerSubnetMappingsWithSubnetIDs (subnetIDs : List String) : List SubnetMapping :=
  subnetIDs.map (fun subnetID => { subnetID := subnetID })

/-- Embeds `strings.HasPrefix` over character lists (structural, so that concrete
instances compute). -/
def hasPrefixChars : List Char → List Char → Bool
  | _, [] => true
  | [], _ :: _ => false
  | c :: cs, p :: ps => c == p && hasPrefixChars cs ps

/-- Embeds `strings.HasPrefix`. -/
def goHasPrefix (s p : String) : Bool := hasPrefixChars s.data p.data

/-- Embeds `resolveSubnetIDsViaNameOrIDSlice`: partition tokens by the `subnet-`
prefix, batch-describe each non-empty bucket, concatenate, and require the
resolved count to equal the requested count. -/
def resolveSubnetIDsViaNameOrIDSlice (t : ModelBuildTask) (subnetNameOrIDs : List String) :
    Except BuildError (List String) :=
  let subnetIDs := subnetNameOrIDs.filter (fun s => goHasPrefix s "subnet-")
  let subnetNames := subnetNameOrIDs.filter (fun s => !goHasPrefix s "subnet-")
  match (if 0 < subnetIDs.length then t.describeSubnetsByIDs subnetIDs else .ok []) with
  | .error e => .error (.upstream e)
  | .ok fromIDs =>
    match (if 0 < subnetNames.length then t.describeSubnetsByNameTag t.vpcID subnetNames else .ok []) with
    | .error e => .error (.upstream e)
    | .ok fromNames =>
      let resolvedSubnetIDs := (fromIDs ++ fromNames).map (fun s => s.subnetId)
      if resolvedSubnetIDs.length ≠ subnetNameOrIDs.length then
        .error (.subnetResolutionError subnetNameOrIDs resolvedSubnetIDs)
      else
        .ok resolvedSubnetIDs

/-- Embeds `resolveSecurityGroupIDsViaNameOrIDSlice`: as for subnets, with the `sg-`
prefix and security-group describes. -/
def resolveSecurityGroupIDsViaNameOrIDSlice (t : ModelBuildTask) (sgNameOrIDs : List String) :
    Except BuildError (List String) :=
  let sgIDs := sgNameOrIDs.filter (fun s => goHasPrefix s "sg-")
  let sgNames := sgNameOrIDs.filter (fun s => !goHasPrefix s "sg-")
  match (if 0 < sgIDs.length then t.describeSecurityGroupsByIDs sgIDs else .ok []) with
  | .error e => .error (.upstream e)
  | .ok fromIDs =>
    match (if 0 < sgNames.length then t.describeSecurityGroupsByNameTag t.vpcID sgNames else .ok []) with
    | .error e => .error (.upstream e)
    | .ok fromNames =>
      let resolvedSGIDs := (fromIDs ++ fromNames).map (fun g => g.groupId)
      if resolvedSGIDs.length ≠ sgNameOrIDs.length then
        .error (.sgResolutionError sgNameOrIDs resolvedSGIDs)
      else
        .ok resolvedSGIDs

/-- The fallback branch of `buildLoadBalancerSubnetMappings`: discover
subnets for the scheme and require at least two of them. -/
def subnetsFromDiscovery (t : ModelBuildTask) (scheme : LoadBalancerScheme) :
    Except BuildError (List SubnetMapping) :=
  match t.discoverSubnets scheme with
  | .error e => .error (.upstream e)
  | .ok chosenSubnets =>
    let chosenSubnetIDs := chosenSubnets.map (fun s => s.subnetId)
    if chosenSubnetIDs.length < 2 then
      .error (.insufficientSubnets chosenSubnetIDs)
    else
      .ok (buildLoadBalancerSubnetMappingsWithSubnetIDs chosenSubnetIDs)

/-- The explicit branch of `buildLoadBalancerSubnetMappings`: conflict-check
the specified lists against the first, then resolve it. -/
def subnetsFromExplicit (t : ModelBuildTask) (chosen : List String) (rest : List (List String)) :
    Except BuildError (List SubnetMapping) :=
  match checkSubnetListsAgainstChosen chosen rest with
  | .error e => .error e
  | .ok chosenSubnetNameOrIDs =>
    match resolveSubnetIDsViaNameOrIDSlice t chosenSubnetNameOrIDs with
    | .error e => .error e
    | .ok chosenSubnetIDs => .ok (buildLoadBalancerSubnetMappingsWithSubnetIDs chosenSubnetIDs)

/-- Embeds `buildLoadBalancerSubnetMappings`. -/
def buildLoadBalancerSubnetMappings (t : ModelBuildTask) (scheme : LoadBalancerScheme) :
    Except BuildError (List SubnetMapping) :=
  match collectSpecifiedLists (fun ing => ing.subnetsAnn) t.members with
  | [] => subnetsFromDiscovery t scheme
  | chosen :: rest => subnetsFromExplicit t chosen rest

/-- The fallback branch of `buildLoadBalancerSecurityGroups`: provision (or
reuse) the managed security group and adopt its single group-ID token. -/
def securityGroupsFromManaged (t : ModelBuildTask) (lpc : ListenPortConfigByPort)
    (ipAddressType : IPAddressType) : Except BuildError (List StringToken) :=
  match t.buildManagedSecurityGroup lpc ipAddressType with
  | .error e => .error (.upstream e)
  | .ok sgToken => .ok [sgToken]

/-- The explicit branch of `buildLoadBalancerSecurityGroups`: conflict-check
then resolve, returning one literal token per resolved group ID. -/
def securityGroupsFromExplicit (t : ModelBuildTask) (chosen : List String)
    (rest : List (List String)) : Except BuildError (List StringToken) :=
  match checkSGListsAgainstChosen chosen rest with
  | .error e => .error e
  | .ok chosenSGNameOrIDs =>
    match resolveSecurityGroupIDsViaNameOrIDSlice t chosenSGNameOrIDs with
    | .error e => .error e
    | .ok chosenSGIDs => .ok (chosenSGIDs.map StringToken.literal)

/-- Embeds `buildLoadBalancerSecurityGroups`. -/
def buildLoadBalancerSecurityGroups (t : ModelBuildTask) (lpc : ListenPortConfigByPort)
    (ipAddressType : IPAddressType) : Except BuildError (List StringToken) :=
  match collectSpecifiedLists (fun ing => ing.securityGroupsAnn) t.members with
  | [] => securityGroupsFromManaged t lpc ipAddressType
  | chosen :: rest => securityGroupsFromExplicit t chosen rest

/-- The inner loop of the map-annotation merges: fold one source's key-value
pairs into the accumulated map, failing on a key already present with a
different value (Go writes the value back also when it is unchanged, which
leaves the map contents identical). -/
def mergeKeyValues : List (String × String) → List (String × String) →
    Except (String × String × String) (List (String × String))
  | merged, [] => .ok merged
  | merged, (k, v) :: rest =>
    match merged.lookup k with
    | some existing =>
        if existing ≠ v then .error (k, existing, v)
        else mergeKeyValues merged rest
    | none => mergeKeyValues (merged ++ [(k, v)]) rest

/-- The outer loop of the map-annotation merges across the group members. -/
def mergeMapsLoop : List (String × String) → List (List (String × String)) →
    Except (String × String × String) (List (String × String))
  | merged, [] => .ok merged
  | merged, src :: rest =>
    match mergeKeyValues merged src with
    | .error e => .error e
    | .ok merged2 => mergeMapsLoop merged2 rest

/-- Embeds `buildLoadBalancerAttributes`. -/
def buildLoadBalancerAttributes (t : ModelBuildTask) :
    Except BuildError (List LoadBalancerAttribute) :=
  match mergeMapsLoop [] (t.members.map (fun ing => ing.attributesAnn)) with
  | .error (k, existing, new) => .error (.conflictingAttribute k existing new)
  | .ok merged => .ok (merged.map (fun kv => { key := kv.1, value := kv.2 }))

/-- Embeds `buildLoadBalancerTags`. -/
def buildLoadBalancerTags (t : ModelBuildTask) :
    Except BuildError (List (String × String)) :=
  match mergeMapsLoop [] (t.members.map (fun ing => ing.tagsAnn)) with
  | .error (k, existing, new) => .error (.conflictingTag k existing new)
  | .ok merged => .ok merged

/-! ## SHA-256 (`crypto/sha256`) and hex encoding (`encoding/hex`)

The name generator hashes the cluster name, the group identity's canonical
string and the scheme.  SHA-256 is embedded here over `Nat` byte lists with
explicit `% 2^32` reductions. -/

/-- Word modulus for 32-bit arithmetic. -/
def wordMod : Nat := 4294967296

/-- Rotate a 32-bit word right by n bits, reduced modulo the word size. -/
def rotr32 (n x : Nat) : Nat :=
  ((x >>> n) ||| (x <<< (32 - n))) % wordMod

/-- SHA-256 Ch function. -/
def ch32 (e f g : Nat) : Nat := (e &&& f) ^^^ ((e ^^^ 4294967295) &&& g)

/-- SHA-256 Maj function. -/
def maj32 (a b c : Nat) : Nat := (a &&& b) ^^^ (a &&& c) ^^^ (b &&& c)

/-- SHA-256 Σ0. -/
def bigSigma0 (x : Nat) : Nat := rotr32 2 x ^^^ rotr32 13 x ^^^ rotr32 22 x

/-- SHA-256 Σ1. -/
def bigSigma1 (x : Nat) : Nat := rotr32 6 x ^^^ rotr32 11 x ^^^ rotr32 25 x

/-- SHA-256 σ0. -/
def smallSigma0 (x : Nat) : Nat := rotr32 7 x ^^^ rotr32 18 x ^^^ (x >>> 3)

/-- SHA-256 σ1. -/
def smallSigma1 (x : Nat) : Nat := rotr32 17 x ^^^ rotr32 19 x ^^^ (x >>> 10)

/-- SHA-256 round constants. -/
def sha256K : List Nat :=
  [1116352408, 1899447441, 3049323471, 3921009573, 961987163, 1508970993, 2453635748, 2870763221,
   3624381080, 310598401, 607225278, 1426881987, 1925078388, 2162078206, 2614888103, 3248222580,
   3835390401, 4022224774, 264347078, 604807628, 770255983, 1249150122, 1555081692, 1996064986,
   2554220882, 2821834349, 2952996808, 3210313671, 3336571891, 3584528711, 113926993, 338241895,
   666307205, 773529912, 1294757372, 1396182291, 1695183700, 1986661051, 2177026350, 2456956037,
   2730485921, 2820302411, 3259730800, 3345764771, 3516065817, 3600352804, 4094571909, 275423344,
   430227734, 506948616, 659060556, 883997877, 958139571, 1322822218, 1537002063, 1747873779,
   1955562222, 2024104815, 2227730452, 2361852424, 2428436474, 2756734187, 3204031479, 3329325298]

/-- SHA-256 initial hash state. -/
def sha256H0 : List Nat :=
  [1779033703, 3144134277, 1013904242, 2773480762, 1359893119, 2600822924, 528734635, 1541459225]

/-- Big-endian 8-byte encoding of a natural number. -/
def beBytes8 (n : Nat) : List Nat :=
  [(n >>> 56) % 256, (n >>> 48) % 256, (n >>> 40) % 256, (n >>> 32) % 256,
   (n >>> 24) % 256, (n >>> 16) % 256, (n >>> 8) % 256, n % 256]

/-- Big-endian 4-byte encoding of a 32-bit word. -/
def beBytes4 (n : Nat) : List Nat :=
  [(n >>> 24) % 256, (n >>> 16) % 256, (n >>> 8) % 256, n % 256]

/-- SHA-256 message padding: a 128 byte, zeros to 56 mod 64, then the
64-bit big-endian bit length. -/
def sha256pad (msg : List Nat) : List Nat :=
  let L := msg.length
  msg ++ 128 :: List.replicate ((120 - (L + 1) % 64) % 64) 0 ++ beBytes8 (8 * L)

/-- Group four big-endian bytes into one 32-bit word each. -/
def bytesToWords : List Nat → List Nat
  | b0 :: b1 :: b2 :: b3 :: rest =>
      (((b0 * 256 + b1) * 256 + b2) * 256 + b3) :: bytesToWords rest
  | _ => []

/-- Extend the 16 message-schedule words to 64. -/
def sha256schedule (w16 : List Nat) : List Nat :=
  (List.range 48).foldl (fun w _ =>
    let j := w.length
    let s0 := smallSigma0 (w.getD (j - 15) 0)
    let s1 := smallSigma1 (w.getD (j - 2) 0)
    w ++ [(w.getD (j - 16) 0 + s0 + w.getD (j - 7) 0 + s1) % wordMod]) w16

/-- One SHA-256 compression round on the eight-word working state. -/
def sha256round (w : List Nat) (st : List Nat) (i : Nat) : List Nat :=
  match st with
  | [a, b, c, d, e, f, g, h] =>
    let t1 := (h + bigSigma1 e + ch32 e f g + sha256K.getD i 0 + w.getD i 0) % wordMod
    let t2 := (bigSigma0 a + maj32 a b c) % wordMod
    [(t1 + t2) % wordMod, a, b, c, (d + t1) % wordMod, e, f, g]
  | other => other

/-- Compress one 64-byte block into the hash state. -/
def sha256compress (h : List Nat) (block : List Nat) : List Nat :=
  let w := sha256schedule (bytesToWords block)
  let final := (List.range 64).foldl (sha256round w) h
  (h.zip final).map (fun p => (p.1 + p.2) % wordMod)

/-- Split a padded message into its 64-byte blocks. -/
def chunksOf64 (l : List Nat) : List (List Nat) :=
  (List.range (l.length / 64)).map (fun i => (l.drop (64 * i)).take 64)

/-- SHA-256 digest (32 bytes) of a byte list. -/
def sha256bytes (msg : List Nat) : List Nat :=
  (((chunksOf64 (sha256pad msg)).foldl sha256compress sha256H0).map beBytes4).flatten

/-- UTF-8 encoding of one character (Go strings are UTF-8 byte sequences). -/
def utf8EncodeChar (c : Char) : List Nat :=
  let n := c.toNat
  if n < 128 then [n]
  else if n < 2048 then [192 + n / 64, 128 + n % 64]
  else if n < 65536 then [224 + n / 4096, 128 + (n / 64) % 64, 128 + n % 64]
  else [240 + n / 262144, 128 + (n / 4096) % 64, 128 + (n / 64) % 64, 128 + n % 64]

/-- The UTF-8 bytes of a string, as `[]byte(s)` in Go. -/
def strBytes (s : String) : List Nat :=
  (s.data.map utf8EncodeChar).flatten

/-- One lowercase hex digit. -/
def hexDigit (n : Nat) : Char :=
  "0123456789abcdef".data.getD n '0'

/-- Embeds `hex.EncodeToString` over a byte list. -/
def hexEncodeBytes (bs : List Nat) : String :=
  ⟨(bs.map (fun b => [hexDigit (b / 16), hexDigit (b % 16)])).flatten⟩

/-! ## Name generation (`buildLoadBalancerName`) -/

/-- The regex `[[:^alnum:]]` replaced by the empty string: delete every
character that is not ASCII alphanumeric. -/
def sanitizeLBName (s : String) : String :=
  ⟨s.data.filter Char.isAlphanum⟩

/-- Go's `%.Ns` string verb: truncate to at most `n` characters. -/
def truncateTo (n : Nat) (s : String) : String :=
  ⟨s.data.take n⟩

/-- Embeds `buildLoadBalancerName`: hex SHA-256 of cluster name ++ group identity
string ++ scheme, composed with the sanitized, truncated group identity. -/
def buildLoadBalancerName (t : ModelBuildTask) (scheme : LoadBalancerScheme) : String :=
  let uuid := hexEncodeBytes (sha256bytes
    (strBytes t.clusterName ++ strBytes t.ingGroupID.canonicalString ++ strBytes scheme.str))
  if t.ingGroupID.explicitFlag then
    let payload := sanitizeLBName t.ingGroupID.name
    "k8s-" ++ truncateTo 17 payload ++ "-" ++ truncateTo 10 uuid
  else
    let sanitizedNamespace := sanitizeLBName t.ingGroupID.nspace
    let sanitizedName := sanitizeLBName t.ingGroupID.name
    "k8s-" ++ truncateTo 8 sanitizedNamespace ++ "-" ++ truncateTo 8 sanitizedName ++
      "-" ++ truncateTo 10 uuid

/-! ## Spec assembly (`buildLoadBalancerSpec`) -/

/-- Embeds `elbv2model.LoadBalancerSpec` as populated by this builder. -/
structure LoadBalancerSpec where
  name : String
  type : LoadBalancerType
  scheme : LoadBalancerScheme
  ipAddressType : IPAddressType
  subnetMappings : List SubnetMapping
  securityGroups : List StringToken
  loadBalancerAttributes : List LoadBalancerAttribute
  tags : List (String × String)
deriving DecidableEq

/-- Embeds `buildLoadBalancerSpec`: evaluate every field in order, aborting on the
first error, and assemble the spec record. -/
def buildLoadBalancerSpec (t : ModelBuildTask) (lpc : ListenPortConfigByPort) :
    Except BuildError LoadBalancerSpec :=
  match buildLoadBalancerScheme t with
  | .error e => .error e
  | .ok scheme =>
    match buildLoadBalancerIPAddressType t with
    | .error e => .error e
    | .ok ipAddressType =>
      match buildLoadBalancerSubnetMappings t scheme with
      | .error e => .error e
      | .ok subnetMappings =>
        match buildLoadBalancerSecurityGroups t lpc ipAddressType with
        | .error e => .error e
        | .ok securityGroups =>
          match buildLoadBalancerAttributes t with
          | .error e => .error e
          | .ok loadBalancerAttributes =>
            match buildLoadBalancerTags t with
            | .error e => .error e
            | .ok tags =>
              .ok { name := buildLoadBalancerName t scheme
                    type := .application
                    scheme := scheme
                    ipAddressType := ipAddressType
                    subnetMappings := subnetMappings
                    securityGroups := securityGroups
                    loadBalancerAttributes := loadBalancerAttributes
                    tags := tags }

/-! ## Lemmas about the collection loops -/

/-- Membership in the deduplicating insert. -/
theorem mem_insertDistinct {s : List String} {x y : String} :
    y ∈ insertDistinct s x ↔ y ∈ s ∨ y = x := by
  unfold insertDistinct
  by_cases h : x ∈ s
  · simp only [if_pos h]
    constructor
    · exact Or.inl
    · rintro (hy | rfl)
      · exact hy
      · exact h
  · simp [if_neg h]

/-- The deduplicating insert preserves `Nodup`. -/
theorem nodup_insertDistinct {s : List String} {x : String} (h : s.Nodup) :
    (insertDistinct s x).Nodup := by
  unfold insertDistinct
  by_cases hx : x ∈ s
  · simpa [if_pos hx] using h
  · simp [if_neg hx, List.nodup_append, h, hx]

/-- Membership in the generalized collection fold. -/
theorem mem_collectDistinct_fold (extract : IngressMember → Option String)
    (ms : List IngressMember) : ∀ (acc : List String) (y : String),
    (y ∈ ms.foldl (fun acc ing =>
        match extract ing with
        | none => acc
        | some raw => insertDistinct acc raw) acc
      ↔ y ∈ acc ∨ ∃ ing ∈ ms, extract ing = some y) := by
  induction ms with
  | nil => intro acc y; simp
  | cons ing ms ih =>
    intro acc y
    simp only [List.foldl_cons]
    cases h : extract ing with
    | none =>
      rw [ih]
      constructor
      · rintro (hy | ⟨i, hi, he⟩)
        · exact Or.inl hy
        · exact Or.inr ⟨i, List.mem_cons_of_mem ing hi, he⟩
      · rintro (hy | ⟨i, hi, he⟩)
        · exact Or.inl hy
        · rcases List.mem_cons.mp hi with rfl | hi2
          · rw [h] at he; cases he
          · exact Or.inr ⟨i, hi2, he⟩
    | some raw =>
      rw [ih]
      rw [mem_insertDistinct]
      constructor
      · rintro ((hy | rfl) | ⟨i, hi, he⟩)
        · exact Or.inl hy
        · exact Or.inr ⟨ing, List.mem_cons_self ing ms, h⟩
        · exact Or.inr ⟨i, List.mem_cons_of_mem ing hi, he⟩
      · rintro (hy | ⟨i, hi, he⟩)
        · exact Or.inl (Or.inl hy)
        · rcases List.mem_cons.mp hi with rfl | hi2
          · rw [h] at he
            exact Or.inl (Or.inr (Option.some_inj.mp he).symm)
          · exact Or.inr ⟨i, hi2, he⟩

/-- Membership in the collected distinct-value set: exactly the values some
member specifies. -/
theorem mem_collectDistinct {extract : IngressMember → Option String}
    {ms : List IngressMember} {y : String} :
    y ∈ collectDistinct extract ms ↔ ∃ ing ∈ ms, extract ing = some y := by
  unfold collectDistinct
  rw [mem_collectDistinct_fold]
  simp

/-- The collected distinct-value set has no duplicates. -/
theorem nodup_collectDistinct (extract : IngressMember → Option String)
    (ms : List IngressMember) : (collectDistinct extract ms).Nodup := by
  unfold collectDistinct
  have general : ∀ (acc : List String), acc.Nodup →
      (ms.foldl (fun acc ing =>
        match extract ing with
        | none => acc
        | some raw => insertDistinct acc raw) acc).Nodup := by
    induction ms with
    | nil => intro acc h; simpa using h
    | cons ing ms ih =>
      intro acc h
      simp only [List.foldl_cons]
      cases hx : extract ing with
      | none => exact ih acc h
      | some raw => exact ih _ (nodup_insertDistinct h)
  exact general [] List.nodup_nil

/-- A duplicate-free list whose members all equal `v`, and which contains
`v`, is `[v]`. -/
theorem nodup_all_eq_singleton {α : Type} {l : List α} {v : α} (hn : l.Nodup)
    (hall : ∀ x ∈ l, x = v) (hv : v ∈ l) : l = [v] := by
  cases l with
  | nil => cases hv
  | cons a rest =>
    have ha : a = v := hall a (List.mem_cons_self a rest)
    subst ha
    cases rest with
    | nil => rfl
    | cons b rest2 =>
      have hb : b = a := hall b (by simp)
      subst hb
      simp at hn

/-- C4: for every single-valued field (scheme and address-family): zero
specifications return the caller-supplied default; exactly one distinct raw
value is validated against the fixed enumeration, an unrecognized value
failing with a validation error naming it; two or more distinct values fail
with a conflict listing exactly the distinct values observed. -/
theorem single_valued_field_merge (t : ModelBuildTask) :
    ((∀ ing ∈ t.members, ing.schemeAnn = none) →
        buildLoadBalancerScheme t = .ok t.defaultScheme)
    ∧ (∀ v : String, (∃ ing ∈ t.members, ing.schemeAnn = some v) →
        (∀ ing ∈ t.members, ∀ w, ing.schemeAnn = some w → w = v) →
        buildLoadBalancerScheme t =
          (if v = "internet-facing" then .ok .internetFacing
           else if v = "internal" then .ok .internal
           else .error (.unknownScheme v)))
    ∧ (∀ v w : String, v ≠ w →
        (∃ ing ∈ t.members, ing.schemeAnn = some v) →
        (∃ ing ∈ t.members, ing.schemeAnn = some w) →
        ∃ vs, buildLoadBalancerScheme t = .error (.conflictingScheme vs) ∧ vs.Nodup ∧
          ∀ x, x ∈ vs ↔ ∃ ing ∈ t.members, ing.schemeAnn = some x)
    ∧ ((∀ ing ∈ t.members, ing.ipAddressTypeAnn = none) →
        buildLoadBalancerIPAddressType t = .ok t.defaultIPAddressType)
    ∧ (∀ v : String, (∃ ing ∈ t.members, ing.ipAddressTypeAnn = some v) →
        (∀ ing ∈ t.members, ∀ w, ing.ipAddressTypeAnn = some w → w = v) →
        buildLoadBalancerIPAddressType t =
          (if v = "ipv4" then .ok .ipv4
           else if v = "dualstack" then .ok .dualstack
           else .error (.unknownIPAddressType v)))
    ∧ (∀ v w : String, v ≠ w →
        (∃ ing ∈ t.members, ing.ipAddressTypeAnn = some v) →
        (∃ ing ∈ t.members, ing.ipAddressTypeAnn = some w) →
        ∃ vs, buildLoadBalancerIPAddressType t = .error (.conflictingIPAddressType vs) ∧
          vs.Nodup ∧ ∀ x, x ∈ vs ↔ ∃ ing ∈ t.members, ing.ipAddressTypeAnn = some x) := by
  have hnil : ∀ (extract : IngressMember → Option String),
      (∀ ing ∈ t.members, extract ing = none) → collectDistinct extract t.members = [] := by
    intro extract h
    rw [List.eq_nil_iff_forall_not_mem]
    intro y hy
    rcases mem_collectDistinct.mp hy with ⟨ing, hing, he⟩
    rw [h ing hing] at he
    cases he
  have hone : ∀ (extract : IngressMember → Option String) (v : String),
      (∃ ing ∈ t.members, extract ing = some v) →
      (∀ ing ∈ t.members, ∀ w, extract ing = some w → w = v) →
      collectDistinct extract t.members = [v] := by
    intro extract v hex hall
    refine nodup_all_eq_singleton (nodup_collectDistinct extract t.members) ?_ ?_
    · intro x hx
      rcases mem_collectDistinct.mp hx with ⟨ing, hing, he⟩
      exact hall ing hing x he
    · exact mem_collectDistinct.mpr hex
  have htwo : ∀ (extract : IngressMember → Option String) (v w : String), v ≠ w →
      (∃ ing ∈ t.members, extract ing = some v) →
      (∃ ing ∈ t.members, extract ing = some w) →
      ∃ a b l2, collectDistinct extract t.members = a :: b :: l2 := by
    intro extract v w hvw hv hw
    have hvm : v ∈ collectDistinct extract t.members := mem_collectDistinct.mpr hv
    have hwm : w ∈ collectDistinct extract t.members := mem_collectDistinct.mpr hw
    cases hc : collectDistinct extract t.members with
    | nil => rw [hc] at hvm; cases hvm
    | cons a rest =>
      cases rest with
      | nil =>
        rw [hc] at hvm hwm
        simp at hvm hwm
        exact absurd (hvm.trans hwm.symm) hvw
      | cons b l2 => exact ⟨a, b, l2, rfl⟩
  refine ⟨?_, ?_, ?_, ?_, ?_, ?_⟩
  · intro h
    unfold buildLoadBalancerScheme
    rw [hnil _ h]
    rfl
  · intro v hex hall
    unfold buildLoadBalancerScheme
    rw [hone _ v hex hall]
    rfl
  · intro v w hvw hv hw
    rcases htwo _ v w hvw hv hw with ⟨a, b, l2, hc⟩
    refine ⟨collectDistinct (fun ing => ing.schemeAnn) t.members, ?_,
      nodup_collectDistinct _ _, fun x => mem_collectDistinct⟩
    unfold buildLoadBalancerScheme
    rw [hc]
    rfl
  · intro h
    unfold buildLoadBalancerIPAddressType
    rw [hnil _ h]
    rfl
  · intro v hex hall
    unfold buildLoadBalancerIPAddressType
    rw [hone _ v hex hall]
    rfl
  · intro v w hvw hv hw
    rcases htwo _ v w hvw hv hw with ⟨a, b, l2, hc⟩
    refine ⟨collectDistinct (fun ing => ing.ipAddressTypeAnn) t.members, ?_,
      nodup_collectDistinct _ _, fun x => mem_collectDistinct⟩
    unfold buildLoadBalancerIPAddressType
    rw [hc]
    rfl

/-- The list-annotation collection loop is `filterMap`. -/
theorem collectSpecifiedLists_eq (extract : IngressMember → Option (List String))
    (ms : List IngressMember) :
    collectSpecifiedLists extract ms = ms.filterMap extract := by
  unfold collectSpecifiedLists
  suffices h : ∀ acc, ms.foldl (fun acc ing =>
      match extract ing with
      | none => acc
      | some raw => acc ++ [raw]) acc = acc ++ ms.filterMap extract by
    simpa using h []
  induction ms with
  | nil => intro acc; simp
  | cons ing ms ih =>
    intro acc
    simp only [List.foldl_cons, List.filterMap_cons]
    cases h : extract ing with
    | none => simp [h, ih]
    | some raw => simp [h, ih]

/-- Zero sources specify the list field exactly when the collection is
empty. -/
theorem collectSpecifiedLists_eq_nil_iff (extract : IngressMember → Option (List String))
    (ms : List IngressMember) :
    collectSpecifiedLists extract ms = [] ↔ ∀ ing ∈ ms, extract ing = none := by
  rw [collectSpecifiedLists_eq]
  exact List.filterMap_eq_nil_iff

/-! ## Stub collaborators for concrete examples -/

/-- Discovery stub returning two subnets in distinct availability zones. -/
def stubDiscover : LoadBalancerScheme → Except String (List Subnet) :=
  fun _ => .ok [⟨"subnet-aaa", "us-west-2a"⟩, ⟨"subnet-bbb", "us-west-2b"⟩]

/-- Subnet describe-by-ID stub resolving every requested ID. -/
def stubSubnetsByIDs : List String → Except String (List Subnet) :=
  fun ids => .ok (ids.map (fun i => ⟨i, "us-west-2a"⟩))

/-- Subnet describe-by-name stub resolving every requested name. -/
def stubSubnetsByName : String → List String → Except String (List Subnet) :=
  fun _ names => .ok (names.map (fun n => ⟨"subnet-of-" ++ n, "us-west-2a"⟩))

/-- Security-group describe-by-ID stub resolving every requested ID. -/
def stubSGsByIDs : List String → Except String (List SecurityGroup) :=
  fun ids => .ok (ids.map (fun i => ⟨i⟩))

/-- Security-group describe-by-name stub resolving every requested name. -/
def stubSGsByName : String → List String → Except String (List SecurityGroup) :=
  fun _ names => .ok (names.map (fun n => ⟨"sg-of-" ++ n⟩))

/-- Managed security-group provisioner stub. -/
def stubManagedSG : ListenPortConfigByPort → IPAddressType → Except String StringToken :=
  fun _ _ => .ok (.resourceRef "SecurityGroup/ManagedLBSecurityGroup" "GroupID")

/-- A member with every annotation absent. -/
def baseMember : IngressMember := ⟨none, none, none, none, [], []⟩

/-- A concrete base task with all stub collaborators. -/
def baseTask : ModelBuildTask where
  clusterName := "my-cluster"
  ingGroupID := ⟨"ns", "grp", false⟩
  members := [baseMember]
  vpcID := "vpc-1"
  defaultScheme := .internal
  defaultIPAddressType := .ipv4
  discoverSubnets := stubDiscover
  describeSubnetsByIDs := stubSubnetsByIDs
  describeSubnetsByNameTag := stubSubnetsByName
  describeSecurityGroupsByIDs := stubSGsByIDs
  describeSecurityGroupsByNameTag := stubSGsByName
  buildManagedSecurityGroup := stubManagedSG

/-- Witness for the single-valued merge theorem at a concrete group: one
member fixes scheme `internal` and address type `dualstack`, the other is
silent. -/
def c4Task : ModelBuildTask :=
  { baseTask with members :=
      [{ baseMember with schemeAnn := some "internal", ipAddressTypeAnn := some "dualstack" },
       baseMember] }

/-- Witness: the single-valued merge at a concrete two-member group. -/
theorem single_valued_field_merge_witness :
    buildLoadBalancerScheme c4Task = .ok .internal ∧
    buildLoadBalancerIPAddressType c4Task = .ok .dualstack := by
  have h := single_valued_field_merge c4Task
  constructor
  · exact (h.2.1 "internal" (by decide) (by decide)).trans (by decide)
  · exact (h.2.2.2.2.1 "dualstack" (by decide) (by decide)).trans (by decide)

/-! ## C1: set-valued field merge -/

/-- Two members specifying the same security groups in different orders. -/
def c1Task : ModelBuildTask :=
  { baseTask with members :=
      [{ baseMember with securityGroupsAnn := some ["sg-a", "sg-b"] },
       { baseMember with securityGroupsAnn := some ["sg-b", "sg-a"] }] }

/-- C1 counterexample: two sources specify set-equal security-group lists in
different orders, yet the merge fails with a conflict — the security-group
conflict check compares the raw slices order-sensitively. -/
theorem sg_set_merge_counterexample :
    stringSliceSetEqual ["sg-a", "sg-b"] ["sg-b", "sg-a"] = true ∧
    buildLoadBalancerSecurityGroups c1Task ⟨[]⟩ .ipv4 =
      .error (.conflictingSecurityGroups ["sg-a", "sg-b"] ["sg-b", "sg-a"]) := by
  constructor
  · decide
  · decide

/-- C1 (amended): the subnet merge accepts later lists set-equal to the
first and the security-group merge demands exact (order-sensitive) list
equality; on success the first-encountered list is returned verbatim, and on
a difference the merge fails with a conflict naming the first list and a
differing list. -/
theorem set_valued_field_merge (chosen : List String) (rest : List (List String)) :
    (∀ r, checkSubnetListsAgainstChosen chosen rest = .ok r → r = chosen)
    ∧ (checkSubnetListsAgainstChosen chosen rest = .ok chosen ↔
        ∀ l ∈ rest, stringSliceSetEqual chosen l = true)
    ∧ ((∃ l ∈ rest, stringSliceSetEqual chosen l = false) →
        ∃ l ∈ rest, stringSliceSetEqual chosen l = false ∧
          checkSubnetListsAgainstChosen chosen rest = .error (.conflictingSubnets chosen l))
    ∧ (∀ r, checkSGListsAgainstChosen chosen rest = .ok r → r = chosen)
    ∧ (checkSGListsAgainstChosen chosen rest = .ok chosen ↔ ∀ l ∈ rest, l = chosen)
    ∧ ((∃ l ∈ rest, l ≠ chosen) →
        ∃ l ∈ rest, l ≠ chosen ∧
          checkSGListsAgainstChosen chosen rest =
            .error (.conflictingSecurityGroups chosen l)) := by
  refine ⟨?_, ?_, ?_, ?_, ?_, ?_⟩
  · intro r
    induction rest with
    | nil => intro h; cases h; rfl
    | cons l ls ih =>
      intro h
      unfold checkSubnetListsAgainstChosen at h
      by_cases he : stringSliceSetEqual chosen l = true
      · rw [if_pos he] at h; exact ih h
      · rw [if_neg he] at h; cases h
  · induction rest with
    | nil => simp [checkSubnetListsAgainstChosen]
    | cons l ls ih =>
      unfold checkSubnetListsAgainstChosen
      by_cases he : stringSliceSetEqual chosen l = true
      · rw [if_pos he, ih]
        simp [he]
      · rw [if_neg he]
        simp only [List.mem_cons]
        constructor
        · intro h; cases h
        · intro h
          exact absurd (h l (Or.inl rfl)) he
  · induction rest with
    | nil => rintro ⟨l, hl, _⟩; cases hl
    | cons l ls ih =>
      rintro ⟨l2, hl2, he2⟩
      unfold checkSubnetListsAgainstChosen
      by_cases he : stringSliceSetEqual chosen l = true
      · rw [if_pos he]
        rcases List.mem_cons.mp hl2 with rfl | hmem
        · rw [he2] at he; cases he
        · rcases ih ⟨l2, hmem, he2⟩ with ⟨l3, hl3, he3, heq⟩
          exact ⟨l3, List.mem_cons_of_mem l hl3, he3, heq⟩
      · refine ⟨l, List.mem_cons_self l ls, by simpa using he, ?_⟩
        rw [if_neg he]
  · intro r
    induction rest with
    | nil => intro h; cases h; rfl
    | cons l ls ih =>
      intro h
      unfold checkSGListsAgainstChosen at h
      by_cases he : l = chosen
      · rw [if_pos he] at h; exact ih h
      · rw [if_neg he] at h; cases h
  · induction rest with
    | nil => simp [checkSGListsAgainstChosen]
    | cons l ls ih =>
      unfold checkSGListsAgainstChosen
      by_cases he : l = chosen
      · rw [if_pos he, ih]
        simp [he]
      · rw [if_neg he]
        simp only [List.mem_cons]
        constructor
        · intro h; cases h
        · intro h
          exact absurd (h l (Or.inl rfl)) he
  · induction rest with
    | nil => rintro ⟨l, hl, _⟩; cases hl
    | cons l ls ih =>
      rintro ⟨l2, hl2, he2⟩
      unfold checkSGListsAgainstChosen
      by_cases he : l = chosen
      · rw [if_pos he]
        rcases List.mem_cons.mp hl2 with rfl | hmem
        · exact absurd he he2
        · rcases ih ⟨l2, hmem, he2⟩ with ⟨l3, hl3, he3, heq⟩
          exact ⟨l3, List.mem_cons_of_mem l hl3, he3, heq⟩
      · refine ⟨l, List.mem_cons_self l ls, he, ?_⟩
        rw [if_neg he]

/-- Witness: the amended set-valued merge at concrete lists — reordered
subnet lists merge to the first list, reordered security-group lists
conflict. -/
theorem set_valued_field_merge_witness :
    checkSubnetListsAgainstChosen ["subnet-1", "subnet-2"] [["subnet-2", "subnet-1"]] =
      .ok ["subnet-1", "subnet-2"] ∧
    (∃ l ∈ [["sg-b", "sg-a"]], l ≠ ["sg-a", "sg-b"] ∧
      checkSGListsAgainstChosen ["sg-a", "sg-b"] [["sg-b", "sg-a"]] =
        .error (.conflictingSecurityGroups ["sg-a", "sg-b"] ["sg-b", "sg-a"])) := by
  constructor
  · exact (set_valued_field_merge ["subnet-1", "subnet-2"] [["subnet-2", "subnet-1"]]).2.1.mpr
      (by decide)
  · have h := (set_valued_field_merge ["sg-a", "sg-b"] [["sg-b", "sg-a"]]).2.2.2.2.2
      (by decide)
    rcases h with ⟨l, hl, hne, herr⟩
    have hl2 : l = ["sg-b", "sg-a"] := by
      rcases List.mem_cons.mp hl with h2 | h2
      · exact h2
      · cases h2
    subst hl2
    exact ⟨_, hl, hne, herr⟩

/-! ## C3: fallback discovery minimum-cardinality check -/

/-- Two discovered subnets sharing one availability zone. -/
def c3SubnetA : Subnet := ⟨"subnet-az1-a", "us-east-1a"⟩

/-- Second discovered subnet in the same availability zone. -/
def c3SubnetB : Subnet := ⟨"subnet-az1-b", "us-east-1a"⟩

/-- No member specifies subnets; discovery yields two same-zone subnets. -/
def c3Task : ModelBuildTask :=
  { baseTask with discoverSubnets := fun _ => .ok [c3SubnetA, c3SubnetB] }

/-- C3 counterexample: with no subnet annotation, discovery returns two
distinct subnets in the SAME availability zone and the build nevertheless
succeeds — the code checks only the count, not failure-domain
distinctness. -/
theorem fallback_discovery_counterexample :
    c3Task.discoverSubnets .internal = .ok [c3SubnetA, c3SubnetB] ∧
    c3SubnetA.availabilityZone = c3SubnetB.availabilityZone ∧
    c3SubnetA.subnetId ≠ c3SubnetB.subnetId ∧
    (∀ ing ∈ c3Task.members, ing.subnetsAnn = none) ∧
    buildLoadBalancerSubnetMappings c3Task .internal =
      .ok [⟨"subnet-az1-a"⟩, ⟨"subnet-az1-b"⟩] := by
  refine ⟨rfl, rfl, by decide, by decide, by decide⟩

/-- The fallback branch after a successful discovery is the count check. -/
theorem subnetsFromDiscovery_ok {t : ModelBuildTask} {scheme : LoadBalancerScheme}
    {subs : List Subnet} (hdisc : t.discoverSubnets scheme = .ok subs) :
    subnetsFromDiscovery t scheme =
      (if (subs.map (fun s => s.subnetId)).length < 2
       then .error (.insufficientSubnets (subs.map (fun s => s.subnetId)))
       else .ok (buildLoadBalancerSubnetMappingsWithSubnetIDs
         (subs.map (fun s => s.subnetId)))) := by
  unfold subnetsFromDiscovery
  rw [hdisc]

/-- C3 (amended): when no source specifies subnets, the build takes the
discovery fallback and succeeds exactly when discovery returned at least two
entries — distinctness of their failure domains is not checked here; with
fewer entries it fails with an insufficient-placement error naming the
discovered subnet IDs. -/
theorem fallback_discovery_min_count (t : ModelBuildTask) (scheme : LoadBalancerScheme)
    (subs : List Subnet)
    (hnone : ∀ ing ∈ t.members, ing.subnetsAnn = none)
    (hdisc : t.discoverSubnets scheme = .ok subs) :
    (subs.length < 2 → buildLoadBalancerSubnetMappings t scheme =
        .error (.insufficientSubnets (subs.map (fun s => s.subnetId))))
    ∧ (2 ≤ subs.length → buildLoadBalancerSubnetMappings t scheme =
        .ok (buildLoadBalancerSubnetMappingsWithSubnetIDs (subs.map (fun s => s.subnetId)))) := by
  have hc : collectSpecifiedLists (fun ing => ing.subnetsAnn) t.members = [] :=
    (collectSpecifiedLists_eq_nil_iff _ _).mpr hnone
  have hb : buildLoadBalancerSubnetMappings t scheme = subnetsFromDiscovery t scheme := by
    unfold buildLoadBalancerSubnetMappings
    rw [hc]
  rw [hb, subnetsFromDiscovery_ok hdisc]
  constructor
  · intro h
    rw [if_pos (by simpa using h)]
  · intro h
    rw [if_neg (by simp; omega)]

/-- Discovery returning a single subnet. -/
def c3wTask : ModelBuildTask :=
  { baseTask with discoverSubnets := fun _ => .ok [⟨"subnet-solo", "us-east-1a"⟩] }

/-- Witness: a single discovered subnet aborts the build with the
insufficient-placement error naming it. -/
theorem fallback_discovery_min_count_witness :
    buildLoadBalancerSubnetMappings c3wTask .internal =
      .error (.insufficientSubnets ["subnet-solo"]) := by
  exact (fallback_discovery_min_count c3wTask .internal [⟨"subnet-solo", "us-east-1a"⟩]
    (by decide) rfl).1 (by decide)

/-! ## C2: resolver completeness -/

/-- Characterization of the subnet resolver when both batched lookups
succeed: the outcome is decided by comparing the found count with the
requested count. -/
theorem resolveSubnetIDs_characterization (t : ModelBuildTask) (tokens : List String)
    (s1 s2 : List Subnet) (found : List Subnet)
    (h1 : t.describeSubnetsByIDs (tokens.filter (fun s => goHasPrefix s "subnet-")) = .ok s1)
    (h2 : t.describeSubnetsByNameTag t.vpcID
      (tokens.filter (fun s => !goHasPrefix s "subnet-")) = .ok s2)
    (hfound : found =
      (if 0 < (tokens.filter (fun s => goHasPrefix s "subnet-")).length then s1 else []) ++
      (if 0 < (tokens.filter (fun s => !goHasPrefix s "subnet-")).length then s2 else [])) :
    resolveSubnetIDsViaNameOrIDSlice t tokens =
      (if (found.map (fun s => s.subnetId)).length ≠ tokens.length
       then .error (.subnetResolutionError tokens (found.map (fun s => s.subnetId)))
       else .ok (found.map (fun s => s.subnetId))) := by
  subst hfound
  simp only [resolveSubnetIDsViaNameOrIDSlice]
  by_cases hA : 0 < (tokens.filter (fun s => goHasPrefix s "subnet-")).length <;>
    by_cases hB : 0 < (tokens.filter (fun s => !goHasPrefix s "subnet-")).length
  · simp only [if_pos hA, if_pos hB, h1, h2]
  · simp only [if_pos hA, if_neg hB, h1]
  · simp only [if_neg hA, if_pos hB, h2]
  · simp only [if_neg hA, if_neg hB]

/-- Characterization of the security-group resolver when both batched
lookups succeed. -/
theorem resolveSGIDs_characterization (t : ModelBuildTask) (tokens : List String)
    (g1 g2 : List SecurityGroup) (found : List SecurityGroup)
    (h3 : t.describeSecurityGroupsByIDs (tokens.filter (fun s => goHasPrefix s "sg-")) = .ok g1)
    (h4 : t.describeSecurityGroupsByNameTag t.vpcID
      (tokens.filter (fun s => !goHasPrefix s "sg-")) = .ok g2)
    (hfound : found =
      (if 0 < (tokens.filter (fun s => goHasPrefix s "sg-")).length then g1 else []) ++
      (if 0 < (tokens.filter (fun s => !goHasPrefix s "sg-")).length then g2 else [])) :
    resolveSecurityGroupIDsViaNameOrIDSlice t tokens =
      (if (found.map (fun g => g.groupId)).length ≠ tokens.length
       then .error (.sgResolutionError tokens (found.map (fun g => g.groupId)))
       else .ok (found.map (fun g => g.groupId))) := by
  subst hfound
  simp only [resolveSecurityGroupIDsViaNameOrIDSlice]
  by_cases hA : 0 < (tokens.filter (fun s => goHasPrefix s "sg-")).length <;>
    by_cases hB : 0 < (tokens.filter (fun s => !goHasPrefix s "sg-")).length
  · simp only [if_pos hA, if_pos hB, h3, h4]
  · simp only [if_pos hA, if_neg hB, h3]
  · simp only [if_neg hA, if_pos hB, h4]
  · simp only [if_neg hA, if_neg hB]

/-- C2: each reference resolver succeeds exactly when the batched lookups
return as many entries as tokens were requested; otherwise it fails with a
resolution error carrying all originally requested tokens and the IDs of
the entries actually found. -/
theorem resolver_completeness (t : ModelBuildTask) (tokens : List String)
    (s1 s2 : List Subnet) (g1 g2 : List SecurityGroup)
    (foundSubnets : List Subnet) (foundSGs : List SecurityGroup)
    (h1 : t.describeSubnetsByIDs (tokens.filter (fun s => goHasPrefix s "subnet-")) = .ok s1)
    (h2 : t.describeSubnetsByNameTag t.vpcID
      (tokens.filter (fun s => !goHasPrefix s "subnet-")) = .ok s2)
    (h3 : t.describeSecurityGroupsByIDs (tokens.filter (fun s => goHasPrefix s "sg-")) = .ok g1)
    (h4 : t.describeSecurityGroupsByNameTag t.vpcID
      (tokens.filter (fun s => !goHasPrefix s "sg-")) = .ok g2)
    (hfs : foundSubnets =
      (if 0 < (tokens.filter (fun s => goHasPrefix s "subnet-")).length then s1 else []) ++
      (if 0 < (tokens.filter (fun s => !goHasPrefix s "subnet-")).length then s2 else []))
    (hfg : foundSGs =
      (if 0 < (tokens.filter (fun s => goHasPrefix s "sg-")).length then g1 else []) ++
      (if 0 < (tokens.filter (fun s => !goHasPrefix s "sg-")).length then g2 else [])) :
    ((∃ ids, resolveSubnetIDsViaNameOrIDSlice t tokens = .ok ids) ↔
        foundSubnets.length = tokens.length)
    ∧ (foundSubnets.length = tokens.length →
        resolveSubnetIDsViaNameOrIDSlice t tokens =
          .ok (foundSubnets.map (fun s => s.subnetId)))
    ∧ (foundSubnets.length ≠ tokens.length →
        resolveSubnetIDsViaNameOrIDSlice t tokens =
          .error (.subnetResolutionError tokens (foundSubnets.map (fun s => s.subnetId))))
    ∧ ((∃ ids, resolveSecurityGroupIDsViaNameOrIDSlice t tokens = .ok ids) ↔
        foundSGs.length = tokens.length)
    ∧ (foundSGs.length = tokens.length →
        resolveSecurityGroupIDsViaNameOrIDSlice t tokens =
          .ok (foundSGs.map (fun g => g.groupId)))
    ∧ (foundSGs.length ≠ tokens.length →
        resolveSecurityGroupIDsViaNameOrIDSlice t tokens =
          .error (.sgResolutionError tokens (foundSGs.map (fun g => g.groupId)))) := by
  have hsub := resolveSubnetIDs_characterization t tokens s1 s2 foundSubnets h1 h2 hfs
  have hsg := resolveSGIDs_characterization t tokens g1 g2 foundSGs h3 h4 hfg
  refine ⟨?_, ?_, ?_, ?_, ?_, ?_⟩
  · rw [hsub]
    by_cases heq : foundSubnets.length = tokens.length
    · rw [if_neg (by simp only [List.length_map]; exact fun hc => hc heq)]
      exact ⟨fun _ => heq, fun _ => ⟨_, rfl⟩⟩
    · rw [if_pos (by simp only [List.length_map]; exact heq)]
      constructor
      · rintro ⟨ids, hids⟩; cases hids
      · intro h2c; exact absurd h2c heq
  · intro heq
    rw [hsub, if_neg (by simp only [List.length_map]; exact fun hc => hc heq)]
  · intro hne
    rw [hsub, if_pos (by simp only [List.length_map]; exact hne)]
  · rw [hsg]
    by_cases heq : foundSGs.length = tokens.length
    · rw [if_neg (by simp only [List.length_map]; exact fun hc => hc heq)]
      exact ⟨fun _ => heq, fun _ => ⟨_, rfl⟩⟩
    · rw [if_pos (by simp only [List.length_map]; exact heq)]
      constructor
      · rintro ⟨ids, hids⟩; cases hids
      · intro h2c; exact absurd h2c heq
  · intro heq
    rw [hsg, if_neg (by simp only [List.length_map]; exact fun hc => hc heq)]
  · intro hne
    rw [hsg, if_pos (by simp only [List.length_map]; exact hne)]

/-- Lookups that find only one of two requested subnets but resolve every
security-group name. -/
def c2Task : ModelBuildTask :=
  { baseTask with
    describeSubnetsByIDs := fun _ => .ok [⟨"subnet-1", "us-west-2a"⟩]
    describeSubnetsByNameTag := fun _ _ => .ok [] }

/-- Witness: requesting two subnet IDs with only one existing fails naming
both requested tokens and the single found entry, while a fully resolvable
security-group name list succeeds. -/
theorem resolver_completeness_witness :
    resolveSubnetIDsViaNameOrIDSlice c2Task ["subnet-1", "subnet-2"] =
      .error (.subnetResolutionError ["subnet-1", "subnet-2"] ["subnet-1"]) ∧
    resolveSecurityGroupIDsViaNameOrIDSlice c2Task ["alpha", "beta"] =
      .ok ["sg-of-alpha", "sg-of-beta"] := by
  constructor
  · exact (resolver_completeness c2Task ["subnet-1", "subnet-2"]
      [⟨"subnet-1", "us-west-2a"⟩] [] [] [⟨"sg-of-subnet-1"⟩, ⟨"sg-of-subnet-2"⟩]
      [⟨"subnet-1", "us-west-2a"⟩] [⟨"sg-of-subnet-1"⟩, ⟨"sg-of-subnet-2"⟩]
      (by decide) (by decide) (by decide) (by decide) (by decide) (by decide)).2.2.1 (by decide)
  · exact (resolver_completeness c2Task ["alpha", "beta"]
      [⟨"subnet-1", "us-west-2a"⟩] [] [] [⟨"sg-of-alpha"⟩, ⟨"sg-of-beta"⟩]
      [] [⟨"sg-of-alpha"⟩, ⟨"sg-of-beta"⟩]
      (by decide) (by decide) (by decide) (by decide) (by decide) (by decide)).2.2.2.2.1 (by decide)

/-! ## C10: duplicated tokens are not deduplicated -/

/-- C10: reference tokens are not deduplicated before resolution — a token
list repeating one canonical ID (or one symbolic name) whose batched lookup
returns a single entry for the one distinct resource fails the count check,
aborting with a resolution error although every referenced resource
exists. -/
theorem duplicate_tokens_fail_resolution (t : ModelBuildTask) (x n y m : String)
    (s sn : Subnet) (g gn : SecurityGroup)
    (hx : goHasPrefix x "subnet-" = true)
    (hxl : t.describeSubnetsByIDs [x, x] = .ok [s])
    (hn : goHasPrefix n "subnet-" = false)
    (hnl : t.describeSubnetsByNameTag t.vpcID [n, n] = .ok [sn])
    (hy : goHasPrefix y "sg-" = true)
    (hyl : t.describeSecurityGroupsByIDs [y, y] = .ok [g])
    (hm : goHasPrefix m "sg-" = false)
    (hml : t.describeSecurityGroupsByNameTag t.vpcID [m, m] = .ok [gn]) :
    resolveSubnetIDsViaNameOrIDSlice t [x, x] =
      .error (.subnetResolutionError [x, x] [s.subnetId])
    ∧ resolveSubnetIDsViaNameOrIDSlice t [n, n] =
      .error (.subnetResolutionError [n, n] [sn.subnetId])
    ∧ resolveSecurityGroupIDsViaNameOrIDSlice t [y, y] =
      .error (.sgResolutionError [y, y] [g.groupId])
    ∧ resolveSecurityGroupIDsViaNameOrIDSlice t [m, m] =
      .error (.sgResolutionError [m, m] [gn.groupId]) := by
  refine ⟨?_, ?_, ?_, ?_⟩
  · have hfid : List.filter (fun s2 => goHasPrefix s2 "subnet-") [x, x] = [x, x] := by
      simp [hx]
    have hfname : List.filter (fun s2 => !goHasPrefix s2 "subnet-") [x, x] = [] := by
      simp [hx]
    simp only [resolveSubnetIDsViaNameOrIDSlice, hfid, hfname]
    simp [hxl]
  · have hfid : List.filter (fun s2 => goHasPrefix s2 "subnet-") [n, n] = [] := by
      simp [hn]
    have hfname : List.filter (fun s2 => !goHasPrefix s2 "subnet-") [n, n] = [n, n] := by
      simp [hn]
    simp only [resolveSubnetIDsViaNameOrIDSlice, hfid, hfname]
    simp [hnl]
  · have hfid : List.filter (fun s2 => goHasPrefix s2 "sg-") [y, y] = [y, y] := by
      simp [hy]
    have hfname : List.filter (fun s2 => !goHasPrefix s2 "sg-") [y, y] = [] := by
      simp [hy]
    simp only [resolveSecurityGroupIDsViaNameOrIDSlice, hfid, hfname]
    simp [hyl]
  · have hfid : List.filter (fun s2 => goHasPrefix s2 "sg-") [m, m] = [] := by
      simp [hm]
    have hfname : List.filter (fun s2 => !goHasPrefix s2 "sg-") [m, m] = [m, m] := by
      simp [hm]
    simp only [resolveSecurityGroupIDsViaNameOrIDSlice, hfid, hfname]
    simp [hml]

/-- Lookups that return one entry per distinct resource. -/
def c10Task : ModelBuildTask :=
  { baseTask with
    describeSubnetsByIDs := fun _ => .ok [⟨"subnet-dup", "us-west-2a"⟩]
    describeSubnetsByNameTag := fun _ _ => .ok [⟨"subnet-named", "us-west-2a"⟩]
    describeSecurityGroupsByIDs := fun _ => .ok [⟨"sg-dup"⟩]
    describeSecurityGroupsByNameTag := fun _ _ => .ok [⟨"sg-named"⟩] }

/-- Witness: duplicated subnet/security-group tokens fail resolution at a
concrete task whose lookups find the (single) referenced resource. -/
theorem duplicate_tokens_fail_resolution_witness :
    resolveSubnetIDsViaNameOrIDSlice c10Task ["subnet-dup", "subnet-dup"] =
      .error (.subnetResolutionError ["subnet-dup", "subnet-dup"] ["subnet-dup"])
    ∧ resolveSubnetIDsViaNameOrIDSlice c10Task ["mysubnet", "mysubnet"] =
      .error (.subnetResolutionError ["mysubnet", "mysubnet"] ["subnet-named"])
    ∧ resolveSecurityGroupIDsViaNameOrIDSlice c10Task ["sg-dup", "sg-dup"] =
      .error (.sgResolutionError ["sg-dup", "sg-dup"] ["sg-dup"])
    ∧ resolveSecurityGroupIDsViaNameOrIDSlice c10Task ["mysg", "mysg"] =
      .error (.sgResolutionError ["mysg", "mysg"] ["sg-named"]) := by
  exact duplicate_tokens_fail_resolution c10Task "subnet-dup" "mysubnet" "sg-dup" "mysg"
    ⟨"subnet-dup", "us-west-2a"⟩ ⟨"subnet-named", "us-west-2a"⟩ ⟨"sg-dup"⟩ ⟨"sg-named"⟩
    (by decide) rfl (by decide) rfl (by decide) rfl (by decide) rfl

/-! ## C5: map-valued field merge -/

/-- A successful association lookup returns a pair of the list. -/
theorem mem_of_lookup_eq_some {k v : String} {l : List (String × String)}
    (h : List.lookup k l = some v) : (k, v) ∈ l := by
  induction l with
  | nil => cases h
  | cons p tl ih =>
    obtain ⟨pk, pv⟩ := p
    by_cases hk : k = pk
    · subst hk
      simp [List.lookup] at h
      subst h
      exact List.mem_cons_self _ _
    · simp [List.lookup, beq_eq_false_iff_ne.mpr hk] at h
      exact List.mem_cons_of_mem _ (ih h)

/-- A failed association lookup means the key is absent. -/
theorem key_not_mem_of_lookup_eq_none {k : String} {l : List (String × String)}
    (h : List.lookup k l = none) : k ∉ l.map Prod.fst := by
  simp at h
  intro hk
  rcases List.mem_map.mp hk with ⟨⟨a, b⟩, hab, heq⟩
  exact h a b hab heq.symm

/-- Distinct keys under `Nodup` force equal values for equal keys. -/
theorem nodup_keys_eq_of_mem {m : List (String × String)} {k v w : String}
    (hnd : (m.map Prod.fst).Nodup) (hv : (k, v) ∈ m) (hw : (k, w) ∈ m) : v = w := by
  induction m with
  | nil => cases hv
  | cons p tl ih =>
    simp only [List.map_cons, List.nodup_cons] at hnd
    rcases List.mem_cons.mp hv with hv1 | hv2
    · rcases List.mem_cons.mp hw with hw1 | hw2
      · rw [← hv1] at hw1
        injection hw1 with h1 h2
        exact h2.symm
      · exfalso
        apply hnd.1
        rw [← hv1]
        exact List.mem_map.mpr ⟨(k, w), hw2, rfl⟩
    · rcases List.mem_cons.mp hw with hw1 | hw2
      · exfalso
        apply hnd.1
        rw [← hw1]
        exact List.mem_map.mpr ⟨(k, v), hv2, rfl⟩
      · exact ih hnd.2 hv2 hw2

/-- Success of the inner merge: the resulting entries are exactly the old
ones plus the source's. -/
theorem mergeKeyValues_ok_mem {src : List (String × String)} :
    ∀ {merged m : List (String × String)}, mergeKeyValues merged src = .ok m →
      ∀ kv, (kv ∈ m ↔ kv ∈ merged ∨ kv ∈ src) := by
  induction src with
  | nil =>
    intro merged m h kv
    cases h
    simp
  | cons p rest ih =>
    intro merged m h kv
    obtain ⟨k, v⟩ := p
    simp only [mergeKeyValues] at h
    cases hl : List.lookup k merged with
    | some existing =>
      simp only [hl] at h
      by_cases hev : existing = v
      · subst hev
        rw [if_neg (by simp)] at h
        rw [ih h kv, List.mem_cons]
        constructor
        · rintro (hm | hr)
          · exact Or.inl hm
          · exact Or.inr (Or.inr hr)
        · rintro (hm | rfl | hr)
          · exact Or.inl hm
          · exact Or.inl (mem_of_lookup_eq_some hl)
          · exact Or.inr hr
      · rw [if_pos hev] at h
        cases h
    | none =>
      simp only [hl] at h
      rw [ih h kv]
      simp only [List.mem_append, List.mem_cons, List.mem_singleton]
      tauto

/-- Success of the inner merge preserves key uniqueness. -/
theorem mergeKeyValues_ok_nodup {src : List (String × String)} :
    ∀ {merged m : List (String × String)}, mergeKeyValues merged src = .ok m →
      (merged.map Prod.fst).Nodup → (m.map Prod.fst).Nodup := by
  induction src with
  | nil =>
    intro merged m h hnd
    cases h
    exact hnd
  | cons p rest ih =>
    intro merged m h hnd
    obtain ⟨k, v⟩ := p
    simp only [mergeKeyValues] at h
    cases hl : List.lookup k merged with
    | some existing =>
      simp only [hl] at h
      by_cases hev : existing = v
      · subst hev
        rw [if_neg (by simp)] at h
        exact ih h hnd
      · rw [if_pos hev] at h
        cases h
    | none =>
      simp only [hl] at h
      refine ih h ?_
      rw [List.map_append]
      rw [List.nodup_append]
      exact ⟨hnd, by simp, by simpa using fun hk => key_not_mem_of_lookup_eq_none hl hk⟩

/-- A conflict reported by the inner merge is genuine: the two values differ,
the existing one was accumulated, the new one is in the source. -/
theorem mergeKeyValues_error {src : List (String × String)} :
    ∀ {merged : List (String × String)} {k v w : String},
      mergeKeyValues merged src = .error (k, v, w) →
      v ≠ w ∧ ((k, v) ∈ merged ∨ (k, v) ∈ src) ∧ (k, w) ∈ src := by
  induction src with
  | nil => intro merged k v w h; cases h
  | cons p rest ih =>
    intro merged k v w h
    obtain ⟨k0, v0⟩ := p
    simp only [mergeKeyValues] at h
    cases hl : List.lookup k0 merged with
    | some existing =>
      simp only [hl] at h
      by_cases hev : existing = v0
      · subst hev
        rw [if_neg (by simp)] at h
        rcases ih h with ⟨hne, hvm, hwm⟩
        exact ⟨hne, hvm.imp id (List.mem_cons_of_mem _), List.mem_cons_of_mem _ hwm⟩
      · rw [if_pos hev] at h
        cases h
        exact ⟨hev, Or.inl (mem_of_lookup_eq_some hl), List.mem_cons_self _ _⟩
    | none =>
      simp only [hl] at h
      rcases ih h with ⟨hne, hvm, hwm⟩
      refine ⟨hne, ?_, List.mem_cons_of_mem _ hwm⟩
      rcases hvm with hvm | hvm
      · rcases List.mem_append.mp hvm with h2 | h2
        · exact Or.inl h2
        · exact Or.inr (by simpa using Or.inl (List.mem_singleton.mp h2))
      · exact Or.inr (List.mem_cons_of_mem _ hvm)

/-- Success of the outer merge: entries are the old ones plus the union of
all sources. -/
theorem mergeMapsLoop_ok_mem {srcs : List (List (String × String))} :
    ∀ {merged m : List (String × String)}, mergeMapsLoop merged srcs = .ok m →
      ∀ kv, (kv ∈ m ↔ kv ∈ merged ∨ ∃ src ∈ srcs, kv ∈ src) := by
  induction srcs with
  | nil =>
    intro merged m h kv
    cases h
    simp
  | cons src rest ih =>
    intro merged m h kv
    simp only [mergeMapsLoop] at h
    cases hk : mergeKeyValues merged src with
    | error e => simp only [hk] at h; cases h
    | ok merged2 =>
      simp only [hk] at h
      rw [ih h kv, mergeKeyValues_ok_mem hk kv]
      constructor
      · rintro ((hm | hs) | ⟨s, hs, hkv⟩)
        · exact Or.inl hm
        · exact Or.inr ⟨src, List.mem_cons_self _ _, hs⟩
        · exact Or.inr ⟨s, List.mem_cons_of_mem _ hs, hkv⟩
      · rintro (hm | ⟨s, hs, hkv⟩)
        · exact Or.inl (Or.inl hm)
        · rcases List.mem_cons.mp hs with rfl | hs2
          · exact Or.inl (Or.inr hkv)
          · exact Or.inr ⟨s, hs2, hkv⟩

/-- Success of the outer merge preserves key uniqueness. -/
theorem mergeMapsLoop_ok_nodup {srcs : List (List (String × String))} :
    ∀ {merged m : List (String × String)}, mergeMapsLoop merged srcs = .ok m →
      (merged.map Prod.fst).Nodup → (m.map Prod.fst).Nodup := by
  induction srcs with
  | nil =>
    intro merged m h hnd
    cases h
    exact hnd
  | cons src rest ih =>
    intro merged m h hnd
    simp only [mergeMapsLoop] at h
    cases hk : mergeKeyValues merged src with
    | error e => simp only [hk] at h; cases h
    | ok merged2 =>
      simp only [hk] at h
      exact ih h (mergeKeyValues_ok_nodup hk hnd)

/-- A conflict reported by the outer merge is genuine. -/
theorem mergeMapsLoop_error {srcs : List (List (String × String))} :
    ∀ {merged : List (String × String)} {k v w : String},
      mergeMapsLoop merged srcs = .error (k, v, w) →
      v ≠ w ∧ ((k, v) ∈ merged ∨ ∃ s ∈ srcs, (k, v) ∈ s) ∧ (∃ s ∈ srcs, (k, w) ∈ s) := by
  induction srcs with
  | nil => intro merged k v w h; cases h
  | cons src rest ih =>
    intro merged k v w h
    simp only [mergeMapsLoop] at h
    cases hk : mergeKeyValues merged src with
    | error e =>
      simp only [hk] at h
      cases h
      rcases mergeKeyValues_error hk with ⟨hne, hvm, hwm⟩
      exact ⟨hne, hvm.imp id (fun h2 => ⟨src, List.mem_cons_self _ _, h2⟩),
        ⟨src, List.mem_cons_self _ _, hwm⟩⟩
    | ok merged2 =>
      rw [hk] at h
      rcases ih h with ⟨hne, hvm, hwm⟩
      refine ⟨hne, ?_, hwm.imp (fun s => And.imp (List.mem_cons_of_mem _) id)⟩
      rcases hvm with hvm | ⟨s, hs, hkv⟩
      · rcases (mergeKeyValues_ok_mem hk _).mp hvm with h2 | h2
        · exact Or.inl h2
        · exact Or.inr ⟨src, List.mem_cons_self _ _, h2⟩
      · exact Or.inr ⟨s, List.mem_cons_of_mem _ hs, hkv⟩

/-- A key mapped to two different values by the sources forces the merge to
fail. -/
theorem mergeMapsLoop_conflict {srcs : List (List (String × String))} {k v w : String}
    (hne : v ≠ w) (hv : ∃ s ∈ srcs, (k, v) ∈ s) (hw : ∃ s ∈ srcs, (k, w) ∈ s) :
    ∃ e, mergeMapsLoop [] srcs = .error e := by
  cases h : mergeMapsLoop [] srcs with
  | error e => exact ⟨e, rfl⟩
  | ok m =>
    have hv2 : (k, v) ∈ m := (mergeMapsLoop_ok_mem h _).mpr (Or.inr hv)
    have hw2 : (k, w) ∈ m := (mergeMapsLoop_ok_mem h _).mpr (Or.inr hw)
    have hnd := mergeMapsLoop_ok_nodup h (by simp)
    exact absurd (nodup_keys_eq_of_mem hnd hv2 hw2) hne

/-- C5: tag and attribute merges union the sources' maps key by key with no
duplicate keys and every entry coming from some source; a key carried with
two different values by the sources always aborts with a conflict naming a
genuinely conflicting key and its two source-provided values. -/
theorem map_field_merge (t : ModelBuildTask) :
    (∀ tags, buildLoadBalancerTags t = .ok tags →
        (tags.map Prod.fst).Nodup ∧
        ∀ kv, kv ∈ tags ↔ ∃ ing ∈ t.members, kv ∈ ing.tagsAnn)
    ∧ (∀ k v w, v ≠ w →
        (∃ ing ∈ t.members, (k, v) ∈ ing.tagsAnn) →
        (∃ ing ∈ t.members, (k, w) ∈ ing.tagsAnn) →
        ∃ k2 v2 w2, buildLoadBalancerTags t = .error (.conflictingTag k2 v2 w2) ∧ v2 ≠ w2 ∧
          (∃ ing ∈ t.members, (k2, v2) ∈ ing.tagsAnn) ∧
          (∃ ing ∈ t.members, (k2, w2) ∈ ing.tagsAnn))
    ∧ (∀ attrs, buildLoadBalancerAttributes t = .ok attrs →
        ((attrs.map (fun a => a.key)).Nodup ∧
         ∀ k v, LoadBalancerAttribute.mk k v ∈ attrs ↔
           ∃ ing ∈ t.members, (k, v) ∈ ing.attributesAnn))
    ∧ (∀ k v w, v ≠ w →
        (∃ ing ∈ t.members, (k, v) ∈ ing.attributesAnn) →
        (∃ ing ∈ t.members, (k, w) ∈ ing.attributesAnn) →
        ∃ k2 v2 w2, buildLoadBalancerAttributes t = .error (.conflictingAttribute k2 v2 w2) ∧
          v2 ≠ w2 ∧
          (∃ ing ∈ t.members, (k2, v2) ∈ ing.attributesAnn) ∧
          (∃ ing ∈ t.members, (k2, w2) ∈ ing.attributesAnn)) := by
  have hsrc : ∀ (f : IngressMember → List (String × String)) (kv : String × String),
      (∃ src ∈ t.members.map f, kv ∈ src) ↔ ∃ ing ∈ t.members, kv ∈ f ing := by
    intro f kv
    simp only [List.mem_map]
    constructor
    · rintro ⟨src, ⟨ing, hing, rfl⟩, hkv⟩
      exact ⟨ing, hing, hkv⟩
    · rintro ⟨ing, hing, hkv⟩
      exact ⟨f ing, ⟨ing, hing, rfl⟩, hkv⟩
  refine ⟨?_, ?_, ?_, ?_⟩
  · intro tags h
    unfold buildLoadBalancerTags at h
    cases hm : mergeMapsLoop [] (t.members.map (fun ing => ing.tagsAnn)) with
    | error e => rw [hm] at h; obtain ⟨k2, v2, w2⟩ := e; cases h
    | ok merged =>
      rw [hm] at h
      cases h
      refine ⟨mergeMapsLoop_ok_nodup hm (by simp), fun kv => ?_⟩
      rw [mergeMapsLoop_ok_mem hm kv]
      simp only [List.not_mem_nil, false_or]
      exact hsrc _ kv
  · intro k v w hne hv hw
    rcases mergeMapsLoop_conflict hne ((hsrc (fun ing => ing.tagsAnn) (k, v)).mpr hv)
      ((hsrc (fun ing => ing.tagsAnn) (k, w)).mpr hw) with ⟨⟨k2, v2, w2⟩, he⟩
    rcases mergeMapsLoop_error he with ⟨hne2, hvm, hwm⟩
    refine ⟨k2, v2, w2, ?_, hne2, ?_, (hsrc _ _).mp hwm⟩
    · unfold buildLoadBalancerTags
      rw [he]
    · rcases hvm with hvm | hvm
      · cases hvm
      · exact (hsrc _ _).mp hvm
  · intro attrs h
    unfold buildLoadBalancerAttributes at h
    cases hm : mergeMapsLoop [] (t.members.map (fun ing => ing.attributesAnn)) with
    | error e => rw [hm] at h; obtain ⟨k2, v2, w2⟩ := e; cases h
    | ok merged =>
      rw [hm] at h
      cases h
      constructor
      · have : (merged.map (fun kv => LoadBalancerAttribute.mk kv.1 kv.2)).map
            (fun a => a.key) = merged.map Prod.fst := by
          rw [List.map_map]
          rfl
        rw [this]
        exact mergeMapsLoop_ok_nodup hm (by simp)
      · intro k v
        have hmem : LoadBalancerAttribute.mk k v ∈
            merged.map (fun kv => LoadBalancerAttribute.mk kv.1 kv.2) ↔ (k, v) ∈ merged := by
          simp only [List.mem_map]
          constructor
          · rintro ⟨⟨k3, v3⟩, hkv, heq⟩
            cases heq
            exact hkv
          · intro hkv
            exact ⟨(k, v), hkv, rfl⟩
        rw [hmem, mergeMapsLoop_ok_mem hm (k, v)]
        simp only [List.not_mem_nil, false_or]
        exact hsrc _ (k, v)
  · intro k v w hne hv hw
    rcases mergeMapsLoop_conflict hne ((hsrc (fun ing => ing.attributesAnn) (k, v)).mpr hv)
      ((hsrc (fun ing => ing.attributesAnn) (k, w)).mpr hw) with ⟨⟨k2, v2, w2⟩, he⟩
    rcases mergeMapsLoop_error he with ⟨hne2, hvm, hwm⟩
    refine ⟨k2, v2, w2, ?_, hne2, ?_, (hsrc _ _).mp hwm⟩
    · unfold buildLoadBalancerAttributes
      rw [he]
    · rcases hvm with hvm | hvm
      · cases hvm
      · exact (hsrc _ _).mp hvm

/-- Tag maps `a=1` and `b=2` in one member, `a=1` again in another. -/
def c5OkTask : ModelBuildTask :=
  { baseTask with members :=
      [{ baseMember with tagsAnn := [("a", "1"), ("b", "2")] },
       { baseMember with tagsAnn := [("a", "1")] }] }

/-- Attribute maps disagreeing on key `idle.timeout`. -/
def c5ConflictTask : ModelBuildTask :=
  { baseTask with members :=
      [{ baseMember with attributesAnn := [("idle.timeout", "60")] },
       { baseMember with attributesAnn := [("idle.timeout", "120")] }] }

/-- Witness: agreeing tag maps merge to their union; disagreeing attribute
maps abort with a conflict on the offending key. -/
theorem map_field_merge_witness :
    ([("a", "1"), ("b", "2")].map Prod.fst).Nodup ∧
    (∀ kv, kv ∈ [("a", "1"), ("b", "2")] ↔ ∃ ing ∈ c5OkTask.members, kv ∈ ing.tagsAnn) ∧
    (∃ k2 v2 w2,
      buildLoadBalancerAttributes c5ConflictTask = .error (.conflictingAttribute k2 v2 w2) ∧
      v2 ≠ w2 ∧
      (∃ ing ∈ c5ConflictTask.members, (k2, v2) ∈ ing.attributesAnn) ∧
      (∃ ing ∈ c5ConflictTask.members, (k2, w2) ∈ ing.attributesAnn)) := by
  have hok := (map_field_merge c5OkTask).1 [("a", "1"), ("b", "2")] (by decide)
  refine ⟨hok.1, hok.2, ?_⟩
  exact (map_field_merge c5ConflictTask).2.2.2 "idle.timeout" "60" "120" (by decide)
    (by decide) (by decide)

/-! ## C8: all-or-nothing spec assembly -/

/-- The subnet conflict-check loop only ever returns the chosen list. -/
theorem checkSubnetLists_ok_eq {chosen r : List String} {rest : List (List String)}
    (h : checkSubnetListsAgainstChosen chosen rest = .ok r) : r = chosen := by
  induction rest with
  | nil => cases h; rfl
  | cons l ls ih =>
    unfold checkSubnetListsAgainstChosen at h
    by_cases he : stringSliceSetEqual chosen l = true
    · rw [if_pos he] at h; exact ih h
    · rw [if_neg he] at h; cases h

/-- The security-group conflict-check loop only ever returns the chosen
list. -/
theorem checkSGLists_ok_eq {chosen r : List String} {rest : List (List String)}
    (h : checkSGListsAgainstChosen chosen rest = .ok r) : r = chosen := by
  induction rest with
  | nil => cases h; rfl
  | cons l ls ih =>
    unfold checkSGListsAgainstChosen at h
    by_cases he : l = chosen
    · rw [if_pos he] at h; exact ih h
    · rw [if_neg he] at h; cases h

/-- C8: the spec build returns a fully populated record exactly when every
field evaluation succeeds, and the first field error aborts the whole build
with that error — no partially-built spec is ever returned. -/
theorem spec_assembly_all_or_nothing (t : ModelBuildTask) (lpc : ListenPortConfigByPort) :
    (∀ s, buildLoadBalancerSpec t lpc = .ok s →
      ∃ scheme ipAddressType subnetMappings securityGroups loadBalancerAttributes tags,
        buildLoadBalancerScheme t = .ok scheme ∧
        buildLoadBalancerIPAddressType t = .ok ipAddressType ∧
        buildLoadBalancerSubnetMappings t scheme = .ok subnetMappings ∧
        buildLoadBalancerSecurityGroups t lpc ipAddressType = .ok securityGroups ∧
        buildLoadBalancerAttributes t = .ok loadBalancerAttributes ∧
        buildLoadBalancerTags t = .ok tags ∧
        s = { name := buildLoadBalancerName t scheme
              type := .application
              scheme := scheme
              ipAddressType := ipAddressType
              subnetMappings := subnetMappings
              securityGroups := securityGroups
              loadBalancerAttributes := loadBalancerAttributes
              tags := tags })
    ∧ (∀ scheme ipAddressType subnetMappings securityGroups loadBalancerAttributes tags,
        buildLoadBalancerScheme t = .ok scheme →
        buildLoadBalancerIPAddressType t = .ok ipAddressType →
        buildLoadBalancerSubnetMappings t scheme = .ok subnetMappings →
        buildLoadBalancerSecurityGroups t lpc ipAddressType = .ok securityGroups →
        buildLoadBalancerAttributes t = .ok loadBalancerAttributes →
        buildLoadBalancerTags t = .ok tags →
        buildLoadBalancerSpec t lpc = .ok
          { name := buildLoadBalancerName t scheme
            type := .application
            scheme := scheme
            ipAddressType := ipAddressType
            subnetMappings := subnetMappings
            securityGroups := securityGroups
            loadBalancerAttributes := loadBalancerAttributes
            tags := tags })
    ∧ (∀ e, buildLoadBalancerScheme t = .error e → buildLoadBalancerSpec t lpc = .error e)
    ∧ (∀ scheme e, buildLoadBalancerScheme t = .ok scheme →
        buildLoadBalancerIPAddressType t = .error e →
        buildLoadBalancerSpec t lpc = .error e)
    ∧ (∀ scheme ip e, buildLoadBalancerScheme t = .ok scheme →
        buildLoadBalancerIPAddressType t = .ok ip →
        buildLoadBalancerSubnetMappings t scheme = .error e →
        buildLoadBalancerSpec t lpc = .error e)
    ∧ (∀ scheme ip sm e, buildLoadBalancerScheme t = .ok scheme →
        buildLoadBalancerIPAddressType t = .ok ip →
        buildLoadBalancerSubnetMappings t scheme = .ok sm →
        buildLoadBalancerSecurityGroups t lpc ip = .error e →
        buildLoadBalancerSpec t lpc = .error e)
    ∧ (∀ scheme ip sm sg e, buildLoadBalancerScheme t = .ok scheme →
        buildLoadBalancerIPAddressType t = .ok ip →
        buildLoadBalancerSubnetMappings t scheme = .ok sm →
        buildLoadBalancerSecurityGroups t lpc ip = .ok sg →
        buildLoadBalancerAttributes t = .error e →
        buildLoadBalancerSpec t lpc = .error e)
    ∧ (∀ scheme ip sm sg attrs e, buildLoadBalancerScheme t = .ok scheme →
        buildLoadBalancerIPAddressType t = .ok ip →
        buildLoadBalancerSubnetMappings t scheme = .ok sm →
        buildLoadBalancerSecurityGroups t lpc ip = .ok sg →
        buildLoadBalancerAttributes t = .ok attrs →
        buildLoadBalancerTags t = .error e →
        buildLoadBalancerSpec t lpc = .error e) := by
  refine ⟨?_, ?_, ?_, ?_, ?_, ?_, ?_, ?_⟩
  · intro s h
    unfold buildLoadBalancerSpec at h
    cases h1 : buildLoadBalancerScheme t with
    | error e => simp only [h1] at h; cases h
    | ok scheme =>
    simp only [h1] at h
    cases h2 : buildLoadBalancerIPAddressType t with
    | error e => simp only [h2] at h; cases h
    | ok ip =>
    simp only [h2] at h
    cases h3 : buildLoadBalancerSubnetMappings t scheme with
    | error e => simp only [h3] at h; cases h
    | ok sm =>
    simp only [h3] at h
    cases h4 : buildLoadBalancerSecurityGroups t lpc ip with
    | error e => simp only [h4] at h; cases h
    | ok sg =>
    simp only [h4] at h
    cases h5 : buildLoadBalancerAttributes t with
    | error e => simp only [h5] at h; cases h
    | ok attrs =>
    simp only [h5] at h
    cases h6 : buildLoadBalancerTags t with
    | error e => simp only [h6] at h; cases h
    | ok tags =>
    simp only [h6] at h
    cases h
    exact ⟨scheme, ip, sm, sg, attrs, tags, rfl, rfl, h3, h4, rfl, rfl, rfl⟩
  · intro scheme ip sm sg attrs tags h1 h2 h3 h4 h5 h6
    unfold buildLoadBalancerSpec
    simp only [h1, h2, h3, h4, h5, h6]
  · intro e h1
    unfold buildLoadBalancerSpec
    simp only [h1]
  · intro scheme e h1 h2
    unfold buildLoadBalancerSpec
    simp only [h1, h2]
  · intro scheme ip e h1 h2 h3
    unfold buildLoadBalancerSpec
    simp only [h1, h2, h3]
  · intro scheme ip sm e h1 h2 h3 h4
    unfold buildLoadBalancerSpec
    simp only [h1, h2, h3, h4]
  · intro scheme ip sm sg e h1 h2 h3 h4 h5
    unfold buildLoadBalancerSpec
    simp only [h1, h2, h3, h4, h5]
  · intro scheme ip sm sg attrs e h1 h2 h3 h4 h5 h6
    unfold buildLoadBalancerSpec
    simp only [h1, h2, h3, h4, h5, h6]

/-- Two members with conflicting scheme annotations. -/
def c8ErrTask : ModelBuildTask :=
  { baseTask with members :=
      [{ baseMember with schemeAnn := some "internal" },
       { baseMember with schemeAnn := some "internet-facing" }] }

/-- Witness: a fully successful build assembles the complete spec record,
and a scheme conflict aborts the whole build with that very error. -/
theorem spec_assembly_all_or_nothing_witness :
    buildLoadBalancerSpec baseTask ⟨[]⟩ = .ok
      { name := buildLoadBalancerName baseTask .internal
        type := .application
        scheme := .internal
        ipAddressType := .ipv4
        subnetMappings := [⟨"subnet-aaa"⟩, ⟨"subnet-bbb"⟩]
        securityGroups := [.resourceRef "SecurityGroup/ManagedLBSecurityGroup" "GroupID"]
        loadBalancerAttributes := []
        tags := [] } ∧
    buildLoadBalancerSpec c8ErrTask ⟨[]⟩ =
      .error (.conflictingScheme ["internal", "internet-facing"]) := by
  constructor
  · exact (spec_assembly_all_or_nothing baseTask ⟨[]⟩).2.1 .internal .ipv4
      [⟨"subnet-aaa"⟩, ⟨"subnet-bbb"⟩]
      [.resourceRef "SecurityGroup/ManagedLBSecurityGroup" "GroupID"] [] []
      (by decide) (by decide) (by decide) (by decide) (by decide) (by decide)
  · exact (spec_assembly_all_or_nothing c8ErrTask ⟨[]⟩).2.2.1
      (.conflictingScheme ["internal", "internet-facing"]) (by decide)

/-! ## C9: explicit configuration versus fallback, never mixed -/

/-- C9: the fallback collaborator (discovery, or managed provisioning) is
consulted exactly when zero sources specify the field; with at least one
explicit list the build routes through the conflict check and the resolver,
its result is exactly the resolver's output, and the fallback collaborator
cannot influence it (and conversely the resolvers cannot influence the
fallback path). -/
theorem selection_policy_explicit_xor_fallback (t : ModelBuildTask)
    (lpc : ListenPortConfigByPort) (scheme : LoadBalancerScheme) (ip : IPAddressType) :
    ((∀ ing ∈ t.members, ing.subnetsAnn = none) →
      buildLoadBalancerSubnetMappings t scheme = subnetsFromDiscovery t scheme ∧
      (∀ dIDs dNT,
        buildLoadBalancerSubnetMappings
          { t with describeSubnetsByIDs := dIDs, describeSubnetsByNameTag := dNT } scheme =
          buildLoadBalancerSubnetMappings t scheme))
    ∧ (∀ chosen rest,
        collectSpecifiedLists (fun ing => ing.subnetsAnn) t.members = chosen :: rest →
        buildLoadBalancerSubnetMappings t scheme = subnetsFromExplicit t chosen rest ∧
        (∀ d, buildLoadBalancerSubnetMappings { t with discoverSubnets := d } scheme =
          buildLoadBalancerSubnetMappings t scheme) ∧
        (∀ sms, buildLoadBalancerSubnetMappings t scheme = .ok sms →
          ∃ ids, resolveSubnetIDsViaNameOrIDSlice t chosen = .ok ids ∧
            sms = buildLoadBalancerSubnetMappingsWithSubnetIDs ids))
    ∧ ((∀ ing ∈ t.members, ing.securityGroupsAnn = none) →
      buildLoadBalancerSecurityGroups t lpc ip = securityGroupsFromManaged t lpc ip ∧
      (∀ dgIDs dgNT,
        buildLoadBalancerSecurityGroups
          { t with describeSecurityGroupsByIDs := dgIDs,
                   describeSecurityGroupsByNameTag := dgNT } lpc ip =
          buildLoadBalancerSecurityGroups t lpc ip) ∧
      (∀ tok, t.buildManagedSecurityGroup lpc ip = .ok tok →
        buildLoadBalancerSecurityGroups t lpc ip = .ok [tok]))
    ∧ (∀ chosen rest,
        collectSpecifiedLists (fun ing => ing.securityGroupsAnn) t.members = chosen :: rest →
        buildLoadBalancerSecurityGroups t lpc ip = securityGroupsFromExplicit t chosen rest ∧
        (∀ msg, buildLoadBalancerSecurityGroups
            { t with buildManagedSecurityGroup := msg } lpc ip =
          buildLoadBalancerSecurityGroups t lpc ip) ∧
        (∀ toks, buildLoadBalancerSecurityGroups t lpc ip = .ok toks →
          ∃ ids, resolveSecurityGroupIDsViaNameOrIDSlice t chosen = .ok ids ∧
            toks = ids.map StringToken.literal)) := by
  refine ⟨?_, ?_, ?_, ?_⟩
  · intro hnone
    have hc : collectSpecifiedLists (fun ing => ing.subnetsAnn) t.members = [] :=
      (collectSpecifiedLists_eq_nil_iff _ _).mpr hnone
    constructor
    · unfold buildLoadBalancerSubnetMappings
      rw [hc]
    · intro dIDs dNT
      have hc2 : collectSpecifiedLists (fun ing => ing.subnetsAnn)
          ({ t with describeSubnetsByIDs := dIDs,
                    describeSubnetsByNameTag := dNT }).members = [] := hc
      have hb2 : buildLoadBalancerSubnetMappings
          { t with describeSubnetsByIDs := dIDs, describeSubnetsByNameTag := dNT } scheme =
          subnetsFromDiscovery
            { t with describeSubnetsByIDs := dIDs, describeSubnetsByNameTag := dNT } scheme := by
        unfold buildLoadBalancerSubnetMappings
        rw [hc2]
      have hb1 : buildLoadBalancerSubnetMappings t scheme = subnetsFromDiscovery t scheme := by
        unfold buildLoadBalancerSubnetMappings
        rw [hc]
      rw [hb2, hb1]
      rfl
  · intro chosen rest hcollect
    have hb : buildLoadBalancerSubnetMappings t scheme = subnetsFromExplicit t chosen rest := by
      unfold buildLoadBalancerSubnetMappings
      rw [hcollect]
    refine ⟨hb, ?_, ?_⟩
    · intro d
      have hcollect2 : collectSpecifiedLists (fun ing => ing.subnetsAnn)
          ({ t with discoverSubnets := d }).members = chosen :: rest := hcollect
      have hb2 : buildLoadBalancerSubnetMappings { t with discoverSubnets := d } scheme =
          subnetsFromExplicit { t with discoverSubnets := d } chosen rest := by
        unfold buildLoadBalancerSubnetMappings
        rw [hcollect2]
      rw [hb2, hb]
      rfl
    · intro sms h
      rw [hb] at h
      unfold subnetsFromExplicit at h
      cases hcheck : checkSubnetListsAgainstChosen chosen rest with
      | error e => simp only [hcheck] at h; cases h
      | ok chosenIDs =>
        simp only [hcheck] at h
        have heq : chosenIDs = chosen := checkSubnetLists_ok_eq hcheck
        subst heq
        cases hres : resolveSubnetIDsViaNameOrIDSlice t chosenIDs with
        | error e => simp only [hres] at h; cases h
        | ok ids =>
          simp only [hres] at h
          cases h
          exact ⟨ids, rfl, rfl⟩
  · intro hnone
    have hc : collectSpecifiedLists (fun ing => ing.securityGroupsAnn) t.members = [] :=
      (collectSpecifiedLists_eq_nil_iff _ _).mpr hnone
    have hb : buildLoadBalancerSecurityGroups t lpc ip = securityGroupsFromManaged t lpc ip := by
      unfold buildLoadBalancerSecurityGroups
      rw [hc]
    refine ⟨hb, ?_, ?_⟩
    · intro dgIDs dgNT
      have hc2 : collectSpecifiedLists (fun ing => ing.securityGroupsAnn)
          ({ t with describeSecurityGroupsByIDs := dgIDs,
                    describeSecurityGroupsByNameTag := dgNT }).members = [] := hc
      have hb2 : buildLoadBalancerSecurityGroups
          { t with describeSecurityGroupsByIDs := dgIDs,
                   describeSecurityGroupsByNameTag := dgNT } lpc ip =
          securityGroupsFromManaged
            { t with describeSecurityGroupsByIDs := dgIDs,
                     describeSecurityGroupsByNameTag := dgNT } lpc ip := by
        unfold buildLoadBalancerSecurityGroups
        rw [hc2]
      rw [hb2, hb]
      rfl
    · intro tok htok
      rw [hb]
      unfold securityGroupsFromManaged
      rw [htok]
  · intro chosen rest hcollect
    have hb : buildLoadBalancerSecurityGroups t lpc ip =
        securityGroupsFromExplicit t chosen rest := by
      unfold buildLoadBalancerSecurityGroups
      rw [hcollect]
    refine ⟨hb, ?_, ?_⟩
    · intro msg
      have hcollect2 : collectSpecifiedLists (fun ing => ing.securityGroupsAnn)
          ({ t with buildManagedSecurityGroup := msg }).members = chosen :: rest := hcollect
      have hb2 : buildLoadBalancerSecurityGroups
          { t with buildManagedSecurityGroup := msg } lpc ip =
          securityGroupsFromExplicit { t with buildManagedSecurityGroup := msg } chosen rest := by
        unfold buildLoadBalancerSecurityGroups
        rw [hcollect2]
      rw [hb2, hb]
      rfl
    · intro toks h
      rw [hb] at h
      unfold securityGroupsFromExplicit at h
      cases hcheck : checkSGListsAgainstChosen chosen rest with
      | error e => simp only [hcheck] at h; cases h
      | ok chosenIDs =>
        simp only [hcheck] at h
        have heq : chosenIDs = chosen := checkSGLists_ok_eq hcheck
        subst heq
        cases hres : resolveSecurityGroupIDsViaNameOrIDSlice t chosenIDs with
        | error e => simp only [hres] at h; cases h
        | ok ids =>
          simp only [hres] at h
          cases h
          exact ⟨ids, rfl, rfl⟩

/-- One member pins the subnets and security groups explicitly. -/
def c9Task : ModelBuildTask :=
  { baseTask with members :=
      [{ baseMember with
          subnetsAnn := some ["subnet-x", "subnet-y"]
          securityGroupsAnn := some ["sg-1"] }] }

/-- A discovery oracle that fails loudly if it is ever consulted. -/
def poisonedDiscovery : LoadBalancerScheme → Except String (List Subnet) :=
  fun _ => .error "discovery must not be invoked"

/-- Witness: with an explicit subnet list the result equals the resolver
output and survives replacing the discovery collaborator by a failing one;
with no security-group list the managed provisioner's token is adopted. -/
theorem selection_policy_explicit_xor_fallback_witness :
    buildLoadBalancerSubnetMappings { c9Task with discoverSubnets := poisonedDiscovery }
        .internal = buildLoadBalancerSubnetMappings c9Task .internal ∧
    (∃ ids, resolveSubnetIDsViaNameOrIDSlice c9Task ["subnet-x", "subnet-y"] = .ok ids ∧
      [SubnetMapping.mk "subnet-x", SubnetMapping.mk "subnet-y"] =
        buildLoadBalancerSubnetMappingsWithSubnetIDs ids) ∧
    buildLoadBalancerSecurityGroups baseTask ⟨[]⟩ .ipv4 =
      .ok [.resourceRef "SecurityGroup/ManagedLBSecurityGroup" "GroupID"] := by
  have h := selection_policy_explicit_xor_fallback c9Task ⟨[]⟩ .internal .ipv4
  have hbase := selection_policy_explicit_xor_fallback baseTask ⟨[]⟩ .internal .ipv4
  refine ⟨?_, ?_, ?_⟩
  · exact (h.2.1 ["subnet-x", "subnet-y"] [] (by decide)).2.1 poisonedDiscovery
  · exact (h.2.1 ["subnet-x", "subnet-y"] [] (by decide)).2.2
      [SubnetMapping.mk "subnet-x", SubnetMapping.mk "subnet-y"] (by decide)
  · exact (hbase.2.2.1 (by decide)).2.2
      (.resourceRef "SecurityGroup/ManagedLBSecurityGroup" "GroupID") (by decide)

/-! ## C6 and C7: name generation -/

/-- C6: name generation is a deterministic, never-failing function of the
cluster identity, the group identity and the scheme, producing
`k8s-` + truncate(sanitized, 17) + `-` + truncate(hex digest, 10) for
explicit groups and
`k8s-` + truncate(ns, 8) + `-` + truncate(name, 8) + `-` + truncate(hex, 10)
for derived ones, the digest being SHA-256 of the concatenated inputs. -/
theorem name_generation_deterministic (t1 t2 : ModelBuildTask)
    (sch1 sch2 : LoadBalancerScheme)
    (hc : t1.clusterName = t2.clusterName)
    (hg : t1.ingGroupID = t2.ingGroupID)
    (hs : sch1 = sch2) :
    buildLoadBalancerName t1 sch1 = buildLoadBalancerName t2 sch2 ∧
    buildLoadBalancerName t1 sch1 =
      (if t1.ingGroupID.explicitFlag then
        "k8s-" ++ truncateTo 17 (sanitizeLBName t1.ingGroupID.name) ++ "-" ++
          truncateTo 10 (hexEncodeBytes (sha256bytes
            (strBytes t1.clusterName ++ strBytes t1.ingGroupID.canonicalString ++
              strBytes sch1.str)))
      else
        "k8s-" ++ truncateTo 8 (sanitizeLBName t1.ingGroupID.nspace) ++ "-" ++
          truncateTo 8 (sanitizeLBName t1.ingGroupID.name) ++ "-" ++
          truncateTo 10 (hexEncodeBytes (sha256bytes
            (strBytes t1.clusterName ++ strBytes t1.ingGroupID.canonicalString ++
              strBytes sch1.str)))) := by
  constructor
  · unfold buildLoadBalancerName
    rw [hc, hg, hs]
  · unfold buildLoadBalancerName
    rfl

/-- Same group identity and cluster, different unrelated task fields. -/
def c6TaskA : ModelBuildTask := { baseTask with ingGroupID := ⟨"default", "webapp", false⟩ }

/-- Same identity inputs as `c6TaskA` but a different VPC. -/
def c6TaskB : ModelBuildTask :=
  { baseTask with ingGroupID := ⟨"default", "webapp", false⟩, vpcID := "vpc-other" }

/-- Witness: equal identity inputs produce equal generated names. -/
theorem name_generation_deterministic_witness :
    buildLoadBalancerName c6TaskA .internetFacing =
      buildLoadBalancerName c6TaskB .internetFacing := by
  exact (name_generation_deterministic c6TaskA c6TaskB .internetFacing .internetFacing
    rfl rfl rfl).1

/-- Every hex digit character is alphanumeric. -/
theorem hexDigit_isAlphanum (n : Nat) : (hexDigit n).isAlphanum = true := by
  unfold hexDigit
  by_cases h : n < 16
  · interval_cases n <;> decide
  · have hle : "0123456789abcdef".data.length ≤ n := by
      have h16 : "0123456789abcdef".data.length = 16 := by decide
      omega
    rw [List.getD_eq_default _ _ hle]
    decide

/-- Every character of a hex encoding is alphanumeric. -/
theorem hexEncodeBytes_chars_alnum (bs : List Nat) :
    ∀ c ∈ (hexEncodeBytes bs).data, c.isAlphanum = true := by
  intro c hc
  have hc2 : c ∈ (bs.map (fun b => [hexDigit (b / 16), hexDigit (b % 16)])).flatten := hc
  simp only [List.mem_flatten, List.mem_map] at hc2
  rcases hc2 with ⟨l, ⟨b, hb, rfl⟩, hcl⟩
  rcases List.mem_cons.mp hcl with rfl | h2
  · exact hexDigit_isAlphanum _
  · rcases List.mem_cons.mp h2 with rfl | h3
    · exact hexDigit_isAlphanum _
    · cases h3

/-- Characters of a truncated string are characters of the string. -/
theorem truncateTo_chars_subset {c : Char} {n : Nat} {s : String}
    (h : c ∈ (truncateTo n s).data) : c ∈ s.data :=
  List.take_subset n s.data h

/-- Characters surviving sanitization are alphanumeric. -/
theorem sanitize_chars_alnum {c : Char} {s : String} (h : c ∈ (sanitizeLBName s).data) :
    c.isAlphanum = true :=
  (List.mem_filter.mp h).2

/-- Membership in the characters of an appended string. -/
theorem mem_append_string {c : Char} {a b : String} :
    c ∈ (a ++ b).data ↔ c ∈ a.data ∨ c ∈ b.data := by
  rw [show (a ++ b).data = a.data ++ b.data from rfl, List.mem_append]

/-- Characters of the fixed name prefix. -/
theorem k8s_prefix_chars {c : Char} (h : c ∈ ("k8s-" : String).data) :
    c.isAlphanum = true ∨ c = '-' := by
  have h2 : c ∈ ['k', '8', 's', '-'] := h
  simp only [List.mem_cons, List.not_mem_nil, or_false] at h2
  rcases h2 with rfl | rfl | rfl | rfl
  · left; decide
  · left; decide
  · left; decide
  · right; rfl

/-- Characters of the dash separator. -/
theorem dash_chars {c : Char} (h : c ∈ ("-" : String).data) : c = '-' := by
  have h2 : c ∈ ['-'] := h
  simp only [List.mem_cons, List.not_mem_nil, or_false] at h2
  exact h2

/-- C7 (amended): an explicit group identity whose sanitized name has at
least 17 characters contributes exactly its first 17 sanitized characters to
the generated name, and every character of every generated name is ASCII
alphanumeric or the `-` separator (dashes do appear, as separators and in
the `k8s-` prefix). -/
theorem name_truncation_and_charset (t : ModelBuildTask) (scheme : LoadBalancerScheme) :
    (t.ingGroupID.explicitFlag = true →
      17 ≤ (sanitizeLBName t.ingGroupID.name).data.length →
      ∃ suffix : String,
        buildLoadBalancerName t scheme =
          "k8s-" ++ String.mk ((sanitizeLBName t.ingGroupID.name).data.take 17) ++
            "-" ++ suffix ∧
        (String.mk ((sanitizeLBName t.ingGroupID.name).data.take 17)).data.length = 17)
    ∧ (∀ c ∈ (buildLoadBalancerName t scheme).data, c.isAlphanum = true ∨ c = '-') := by
  constructor
  · intro hexp h17
    simp only [buildLoadBalancerName]
    rw [if_pos hexp]
    refine ⟨_, rfl, ?_⟩
    show ((sanitizeLBName t.ingGroupID.name).data.take 17).length = 17
    rw [List.length_take]
    omega
  · intro c hc
    simp only [buildLoadBalancerName] at hc
    by_cases hexp : t.ingGroupID.explicitFlag = true
    · rw [if_pos hexp] at hc
      rw [mem_append_string] at hc
      rcases hc with hc | hc
      · rw [mem_append_string] at hc
        rcases hc with hc | hc
        · rw [mem_append_string] at hc
          rcases hc with hc | hc
          · exact k8s_prefix_chars hc
          · exact Or.inl (sanitize_chars_alnum (truncateTo_chars_subset hc))
        · exact Or.inr (dash_chars hc)
      · exact Or.inl (hexEncodeBytes_chars_alnum _ c (truncateTo_chars_subset hc))
    · rw [if_neg hexp] at hc
      rw [mem_append_string] at hc
      rcases hc with hc | hc
      · rw [mem_append_string] at hc
        rcases hc with hc | hc
        · rw [mem_append_string] at hc
          rcases hc with hc | hc
          · rw [mem_append_string] at hc
            rcases hc with hc | hc
            · rw [mem_append_string] at hc
              rcases hc with hc | hc
              · exact k8s_prefix_chars hc
              · exact Or.inl (sanitize_chars_alnum (truncateTo_chars_subset hc))
            · exact Or.inr (dash_chars hc)
          · exact Or.inl (sanitize_chars_alnum (truncateTo_chars_subset hc))
        · exact Or.inr (dash_chars hc)
      · exact Or.inl (hexEncodeBytes_chars_alnum _ c (truncateTo_chars_subset hc))

/-- An explicitly named group with a long, dashed name. -/
def c7Task : ModelBuildTask :=
  { baseTask with ingGroupID := ⟨"", "my-api-group-name-that-is-long", true⟩ }

/-- C7 counterexample: the generated load-balancer name does contain the
non-alphanumeric character `-` (the prefix and separator dashes), refuting
"non-alphanumeric characters never appear in the generated name" as
stated. -/
theorem name_charset_counterexample :
    ('-' ∈ (buildLoadBalancerName c7Task .internetFacing).data) ∧
    ('-'.isAlphanum = false) := by
  constructor
  · simp only [buildLoadBalancerName]
    rw [if_pos (show c7Task.ingGroupID.explicitFlag = true from rfl)]
    rw [mem_append_string]
    left
    rw [mem_append_string]
    right
    decide
  · decide

/-- Witness: the amended truncation statement at the concrete long-named
explicit group. -/
theorem name_truncation_and_charset_witness :
    ∃ suffix : String,
      buildLoadBalancerName c7Task .internetFacing =
        "k8s-" ++ String.mk ((sanitizeLBName c7Task.ingGroupID.name).data.take 17) ++
          "-" ++ suffix ∧
      (String.mk ((sanitizeLBName c7Task.ingGroupID.name).data.take 17)).data.length = 17 := by
  exact (name_truncation_and_charset c7Task .internetFacing).1 (by decide) (by decide)

end LBBuild
